import Mathlib

/-!
Shallow embedding of the distributed task-orchestration core of the
ai-news-collector-mcp repository: the task queue and scheduler, the task
router and load balancer, the service registry, and the communication
layer's circuit breaker, rate limiter and message validation.

JavaScript `Map` objects (keyed stores with insertion order, in-place
update of existing keys) are embedded as association lists.  Millisecond
timestamps (JS `Date.now()` / `Date` values) are embedded as `Int` and
passed explicitly to every operation that reads the clock.  The `uuidv4`
task-id generator is modelled by a fresh-id counter carried in the queue
state, capturing exactly the property the source relies on: a newly
generated id never collides with an id already present.
-/

namespace AINews

/-- Association-list embedding of a JS Map: lookup returns the value of the
first (and, under the no-duplicate-keys invariant, only) entry with the key. -/
def alookup {κ α : Type} [DecidableEq κ] : List (κ × α) → κ → Option α
  | [], _ => none
  | (k', v) :: rest, k => if k' = k then some v else alookup rest k

/-- JS `Map.set`: replace the value in place if the key is present (keeping
its position), otherwise append the new entry at the end. -/
def aset {κ α : Type} [DecidableEq κ] : List (κ × α) → κ → α → List (κ × α)
  | [], k, v => [(k, v)]
  | (k', v') :: rest, k, v =>
      if k' = k then (k, v) :: rest else (k', v') :: aset rest k v

/-- JS `Map.delete`: remove the (first) entry with the key. -/
def adel {κ α : Type} [DecidableEq κ] : List (κ × α) → κ → List (κ × α)
  | [], _ => []
  | (k', v') :: rest, k =>
      if k' = k then rest else (k', v') :: adel rest k

/-- Keys of an association list, in insertion order. -/
def akeys {κ α : Type} (m : List (κ × α)) : List κ := m.map (·.1)

theorem alookup_aset_self {κ α : Type} [DecidableEq κ] (m : List (κ × α)) (k : κ) (v : α) :
    alookup (aset m k v) k = some v := by
  induction m with
  | nil => simp [aset, alookup]
  | cons p rest ih =>
      obtain ⟨k', v'⟩ := p
      by_cases h : k' = k <;> simp [aset, alookup, h, ih]

theorem alookup_aset_ne {κ α : Type} [DecidableEq κ] (m : List (κ × α)) (k k' : κ) (v : α)
    (h : k ≠ k') : alookup (aset m k v) k' = alookup m k' := by
  induction m with
  | nil => simp [aset, alookup, h]
  | cons p rest ih =>
      obtain ⟨k₀, v₀⟩ := p
      by_cases h₀ : k₀ = k
      · subst h₀; simp [aset, alookup, h, ih]
      · simp only [aset, if_neg h₀]
        by_cases h₁ : k₀ = k' <;> simp [alookup, h₁, ih]

theorem alookup_adel_ne {κ α : Type} [DecidableEq κ] (m : List (κ × α)) (k k' : κ)
    (h : k ≠ k') : alookup (adel m k) k' = alookup m k' := by
  induction m with
  | nil => simp [adel]
  | cons p rest ih =>
      obtain ⟨k₀, v₀⟩ := p
      by_cases h₀ : k₀ = k
      · have hne : ¬ k₀ = k' := by rw [h₀]; exact h
        simp only [adel, if_pos h₀, alookup, if_neg hne]
      · simp only [adel, if_neg h₀]
        by_cases h₁ : k₀ = k' <;> simp [alookup, h₁, ih]

theorem alookup_eq_some_mem {κ α : Type} [DecidableEq κ] {m : List (κ × α)} {k : κ} {v : α}
    (h : alookup m k = some v) : (k, v) ∈ m := by
  induction m with
  | nil => simp [alookup] at h
  | cons p rest ih =>
      obtain ⟨k₀, v₀⟩ := p
      by_cases h₀ : k₀ = k
      · subst h₀
        simp [alookup] at h
        subst h; exact List.mem_cons_self _ _
      · simp only [alookup, if_neg h₀] at h
        exact List.mem_cons_of_mem _ (ih h)

theorem alookup_isSome_iff_mem_akeys {κ α : Type} [DecidableEq κ] (m : List (κ × α)) (k : κ) :
    (alookup m k).isSome ↔ k ∈ akeys m := by
  induction m with
  | nil => simp [alookup, akeys]
  | cons p rest ih =>
      obtain ⟨k₀, v₀⟩ := p
      by_cases h₀ : k₀ = k
      · subst h₀; simp [alookup, akeys]
      · simp only [alookup, if_neg h₀, akeys, List.map_cons, List.mem_cons]
        rw [ih]
        constructor
        · intro h; right; exact h
        · rintro (h | h)
          · exact absurd h.symm h₀
          · exact h

theorem alookup_eq_none_iff_not_mem {κ α : Type} [DecidableEq κ] (m : List (κ × α)) (k : κ) :
    alookup m k = none ↔ k ∉ akeys m := by
  rw [← alookup_isSome_iff_mem_akeys]
  cases h : alookup m k <;> simp [h]

theorem akeys_aset_of_mem {κ α : Type} [DecidableEq κ] {m : List (κ × α)} {k : κ} (v : α)
    (h : k ∈ akeys m) : akeys (aset m k v) = akeys m := by
  induction m with
  | nil => simp [akeys] at h
  | cons p rest ih =>
      obtain ⟨k₀, v₀⟩ := p
      by_cases h₀ : k₀ = k
      · subst h₀; simp [aset, akeys]
      · simp only [akeys, List.map_cons, List.mem_cons] at h
        rcases h with h | h
        · exact absurd h.symm h₀
        · simp only [aset, if_neg h₀, akeys, List.map_cons]
          rw [show List.map (·.1) (aset rest k v) = akeys (aset rest k v) from rfl, ih h]
          rfl

theorem akeys_aset_of_not_mem {κ α : Type} [DecidableEq κ] {m : List (κ × α)} {k : κ} (v : α)
    (h : k ∉ akeys m) : akeys (aset m k v) = akeys m ++ [k] := by
  induction m with
  | nil => simp [aset, akeys]
  | cons p rest ih =>
      obtain ⟨k₀, v₀⟩ := p
      simp only [akeys, List.map_cons, List.mem_cons] at h
      push_neg at h
      have h₀ : ¬ k₀ = k := fun hh => h.1 hh.symm
      simp only [aset, if_neg h₀, akeys, List.map_cons, List.cons_append]
      rw [show List.map (·.1) (aset rest k v) = akeys (aset rest k v) from rfl, ih h.2]
      rfl

theorem akeys_adel_sublist {κ α : Type} [DecidableEq κ] (m : List (κ × α)) (k : κ) :
    List.Sublist (akeys (adel m k)) (akeys m) := by
  induction m with
  | nil => simp [adel]
  | cons p rest ih =>
      obtain ⟨k₀, v₀⟩ := p
      by_cases h₀ : k₀ = k
      · simp only [adel, if_pos h₀, akeys, List.map_cons]
        exact (List.sublist_cons_self _ _)
      · simp only [adel, if_neg h₀, akeys, List.map_cons]
        exact ih.cons₂ _

theorem not_mem_akeys_adel {κ α : Type} [DecidableEq κ] {m : List (κ × α)} {k : κ}
    (hnd : (akeys m).Nodup) : k ∉ akeys (adel m k) := by
  induction m with
  | nil => simp [adel, akeys]
  | cons p rest ih =>
      obtain ⟨k₀, v₀⟩ := p
      simp only [akeys, List.map_cons, List.nodup_cons] at hnd
      by_cases h₀ : k₀ = k
      · subst h₀
        simp only [adel, if_pos rfl]
        exact hnd.1
      · simp only [adel, if_neg h₀, akeys, List.map_cons, List.mem_cons]
        rintro (h | h)
        · exact h₀ h.symm
        · exact ih hnd.2 h

theorem mem_akeys_adel {κ α : Type} [DecidableEq κ] {m : List (κ × α)} {k k' : κ}
    (h : k' ∈ akeys (adel m k)) : k' ∈ akeys m :=
  (akeys_adel_sublist m k).mem h

theorem mem_of_mem_adel {κ α : Type} [DecidableEq κ] {m : List (κ × α)} {k : κ} {p : κ × α}
    (h : p ∈ adel m k) : p ∈ m := by
  induction m with
  | nil => simp [adel] at h
  | cons q rest ih =>
      obtain ⟨k₀, v₀⟩ := q
      by_cases h₀ : k₀ = k
      · simp [adel, h₀] at h
        exact List.mem_cons_of_mem _ h
      · simp [adel, if_neg h₀] at h
        rcases h with h | h
        · simp [h]
        · exact List.mem_cons_of_mem _ (ih h)

theorem mem_of_mem_aset {κ α : Type} [DecidableEq κ] {m : List (κ × α)} {k : κ} {v : α}
    {p : κ × α} (h : p ∈ aset m k v) : p ∈ m ∨ p = (k, v) := by
  induction m with
  | nil => simp [aset] at h; right; exact h
  | cons q rest ih =>
      obtain ⟨k₀, v₀⟩ := q
      by_cases h₀ : k₀ = k
      · simp [aset, h₀] at h
        rcases h with h | h
        · right; exact h
        · left; exact List.mem_cons_of_mem _ h
      · simp [aset, if_neg h₀] at h
        rcases h with h | h
        · left; simp [h]
        · rcases ih h with h' | h'
          · left; exact List.mem_cons_of_mem _ h'
          · right; exact h'

/-! ## Task data model (src TaskQueue module, `types` file) -/

/-- TaskStatus enum of the source. -/
inductive TaskStatus : Type
  | PENDING | QUEUED | ASSIGNED | RUNNING
  | COMPLETED | FAILED | CANCELLED | TIMEOUT
deriving DecidableEq, Repr

/-- Task record of the source.  Ids are generated by `uuidv4` in the source;
they are embedded as naturals drawn from a fresh-id counter in the queue
state.  `data`, `result` and `metadata` are opaque payloads, embedded as
strings / string pairs. -/
structure Task where
  id : Nat
  type : String
  subtype : Option String
  priority : Int
  status : TaskStatus
  data : String
  result : Option String
  error : Option String
  created_at : Int
  updated_at : Int
  assigned_agent : Option String
  assigned_at : Option Int
  started_at : Option Int
  completed_at : Option Int
  retry_count : Nat
  max_retries : Nat
  timeout : Int
  tags : List String
  metadata : List (String × String)
deriving DecidableEq, Repr

/-- TaskConfig record of the source. -/
structure TaskConfig where
  max_concurrent_tasks : Nat
  default_timeout : Int
  max_retries : Nat
  retry_delay : Int
  cleanup_interval : Int
  task_retention_days : Int
deriving DecidableEq, Repr

/-- Enqueue input: the Task fields other than id, created_at, updated_at,
retry_count and status (the source's Omit type). -/
structure NewTask where
  type : String
  subtype : Option String
  priority : Int
  data : String
  result : Option String
  error : Option String
  assigned_agent : Option String
  assigned_at : Option Int
  started_at : Option Int
  completed_at : Option Int
  max_retries : Nat
  timeout : Int
  tags : List String
  metadata : List (String × String)
deriving DecidableEq, Repr

/-- State of the source's TaskQueue class: the pending array, the processing
and completed Maps, the configuration, and the fresh-id counter standing in
for `uuidv4`. -/
structure TaskQueue where
  queue : List Task
  processing : List (Nat × Task)
  completed : List (Nat × Task)
  config : TaskConfig
  nextId : Nat
deriving DecidableEq, Repr

/-- Comparator of the source's pending-array sort: `b.priority - a.priority`,
i.e. descending priority.  JS `Array.prototype.sort` is stable. -/
def prioLE (a b : Task) : Bool := decide (b.priority ≤ a.priority)

def TaskQueue.empty (config : TaskConfig) : TaskQueue :=
  { queue := [], processing := [], completed := [], config := config, nextId := 0 }

/-- TaskQueue.enqueue: build the new task (fresh id, PENDING, retry_count 0),
push it onto the pending array and re-sort the array by descending priority. -/
def TaskQueue.enqueue (s : TaskQueue) (nt : NewTask) (now : Int) : Task × TaskQueue :=
  let newTask : Task :=
    { id := s.nextId, type := nt.type, subtype := nt.subtype, priority := nt.priority,
      status := TaskStatus.PENDING, data := nt.data, result := nt.result, error := nt.error,
      created_at := now, updated_at := now, assigned_agent := nt.assigned_agent,
      assigned_at := nt.assigned_at, started_at := nt.started_at,
      completed_at := nt.completed_at, retry_count := 0, max_retries := nt.max_retries,
      timeout := nt.timeout, tags := nt.tags, metadata := nt.metadata }
  (newTask,
    { s with queue := (s.queue ++ [newTask]).mergeSort prioLE, nextId := s.nextId + 1 })

/-- TaskQueue.dequeue: none if the pending array is empty or the processing
Map has reached max_concurrent_tasks; otherwise shift the head, mark it
ASSIGNED to the (optional) agent, and move it into the processing Map. -/
def TaskQueue.dequeue (s : TaskQueue) (agentId : Option String) (now : Int) :
    Option (Task × TaskQueue) :=
  match s.queue with
  | [] => none
  | t :: rest =>
      if s.config.max_concurrent_tasks ≤ s.processing.length then none
      else
        let t' := { t with status := TaskStatus.ASSIGNED, assigned_agent := agentId,
                           assigned_at := some now, updated_at := now }
        some (t', { s with queue := rest, processing := aset s.processing t'.id t' })

/-- TaskQueue.startTask: processing task to RUNNING; none embeds the thrown
`not found in processing` error (the source throws before any mutation). -/
def TaskQueue.startTask (s : TaskQueue) (taskId : Nat) (now : Int) : Option TaskQueue :=
  match alookup s.processing taskId with
  | none => none
  | some t =>
      let t' := { t with status := TaskStatus.RUNNING, started_at := some now,
                         updated_at := now }
      some { s with processing := aset s.processing taskId t' }

/-- TaskQueue.completeTask: processing task to COMPLETED with result and
completed_at, moved from the processing Map to the completed Map. -/
def TaskQueue.completeTask (s : TaskQueue) (taskId : Nat) (result : String) (now : Int) :
    Option TaskQueue :=
  match alookup s.processing taskId with
  | none => none
  | some t =>
      let t' := { t with status := TaskStatus.COMPLETED, result := some result,
                         completed_at := some now, updated_at := now }
      some { s with processing := adel s.processing taskId,
                    completed := aset s.completed taskId t' }

/-- TaskQueue.failTask: increment retry_count and record the error; if
retry_count has reached max_retries, FAILED and moved to the completed Map;
otherwise reset to PENDING (clearing assigned_agent, assigned_at and
started_at) and push onto the END of the pending array without re-sorting. -/
def TaskQueue.failTask (s : TaskQueue) (taskId : Nat) (error : String) (now : Int) :
    Option TaskQueue :=
  match alookup s.processing taskId with
  | none => none
  | some t =>
      let t1 := { t with retry_count := t.retry_count + 1, error := some error,
                         updated_at := now }
      if t1.max_retries ≤ t1.retry_count then
        some { s with processing := adel s.processing taskId,
                      completed := aset s.completed taskId
                        { t1 with status := TaskStatus.FAILED, completed_at := some now } }
      else
        some { s with processing := adel s.processing taskId,
                      queue := s.queue ++
                        [{ t1 with status := TaskStatus.PENDING, assigned_agent := none,
                                   assigned_at := none, started_at := none }] }

/-- Removal of the first pending-array entry with the given id (the source's
findIndex followed by splice). -/
def removeFirstTask : List Task → Nat → List Task
  | [], _ => []
  | t :: rest, taskId =>
      if t.id = taskId then rest else t :: removeFirstTask rest taskId

/-- TaskQueue.cancelTask: if the id is in the pending array, splice it out,
mark CANCELLED (updated_at only — the source does not stamp completed_at on
this branch) and put it in the completed Map; otherwise, if it is in the
processing Map, mark CANCELLED with completed_at and move it; otherwise the
call silently changes nothing. -/
def TaskQueue.cancelTask (s : TaskQueue) (taskId : Nat) (now : Int) : TaskQueue :=
  match s.queue.find? (fun t => t.id = taskId) with
  | some t =>
      let t' := { t with status := TaskStatus.CANCELLED, updated_at := now }
      { s with queue := removeFirstTask s.queue taskId,
               completed := aset s.completed taskId t' }
  | none =>
      match alookup s.processing taskId with
      | some t =>
          let t' := { t with status := TaskStatus.CANCELLED, updated_at := now,
                             completed_at := some now }
          { s with processing := adel s.processing taskId,
                   completed := aset s.completed taskId t' }
      | none => s

/-- TaskQueue.getTask: pending array first, then the processing Map, then the
completed Map. -/
def TaskQueue.getTask (s : TaskQueue) (taskId : Nat) : Option Task :=
  match s.queue.find? (fun t => t.id = taskId) with
  | some t => some t
  | none =>
      match alookup s.processing taskId with
      | some t => some t
      | none => alookup s.completed taskId

/-- TaskQueue.cleanup: purge completed-Map entries whose completed_at is
strictly before the retention cutoff; an entry with no completed_at is never
purged (the source's `task.completed_at! < cutoffDate` is false for it). -/
def TaskQueue.cleanup (s : TaskQueue) (now : Int) : TaskQueue :=
  let cutoff := now - s.config.task_retention_days * 24 * 60 * 60 * 1000
  { s with completed := s.completed.filter (fun p =>
      match p.2.completed_at with
      | some t => decide (cutoff ≤ t)
      | none => true) }

/-- TaskQueue.checkTimeouts: collect the processing tasks whose started_at is
set and older than their timeout, then fail each with the timeout error.  The
fold threads the Option of the source's awaited failTask calls; every
collected id is in the processing Map, so no call actually fails. -/
def TaskQueue.checkTimeouts (s : TaskQueue) (now : Int) : Option TaskQueue :=
  let timedOut := (s.processing.filter (fun p =>
      match p.2.started_at with
      | some st => decide (p.2.timeout < now - st)
      | none => false)).map (·.1)
  timedOut.foldl (fun acc taskId =>
    acc.bind (fun q => TaskQueue.failTask q taskId "Task timeout" now)) (some s)

/-! ## Task router and load balancer (src task-router module) -/

/-- Route table seeded by the source's route initialisation: successive
Map.set calls from an empty Map, in source order. -/
def initialRoutes : List (String × List String) :=
  [("collect_news", ["collector"]), ("process_content", ["processor"]),
   ("analyze_sentiment", ["analyzer"]), ("detect_risks", ["analyzer"]),
   ("extract_entities", ["processor"]), ("extract_events", ["processor"]),
   ("generate_report", ["analyzer"]), ("cleanup_data", ["processor"])]

/-- TaskRouter.routeBySubtype: the source's switch over (type, subtype); a
fall-through returns the capable-agents list unchanged. -/
def TaskRouter.routeBySubtype (taskType : String) (subtype : String)
    (capableAgents : List String) : List String :=
  if taskType = "collect_news" then
    if subtype = "rss" then ["collector"]
    else if subtype = "web" then ["collector"]
    else if subtype = "api" then ["collector"]
    else capableAgents
  else if taskType = "process_content" then
    if subtype = "clean" then ["processor"]
    else if subtype = "extract" then ["processor"]
    else capableAgents
  else if taskType = "analyze_sentiment" then
    if subtype = "basic" then ["analyzer"]
    else if subtype = "advanced" then ["analyzer"]
    else capableAgents
  else capableAgents

/-- TaskRouter.routeTask: route-table lookup (empty list when the type is
unknown), refined by subtype when one is present. -/
def TaskRouter.routeTask (routeTable : List (String × List String)) (t : Task) :
    List String :=
  let capableAgents := (alookup routeTable t.type).getD []
  match t.subtype with
  | some st => TaskRouter.routeBySubtype t.type st capableAgents
  | none => capableAgents

/-- State of the source's LoadBalancer class: per-agent load numbers and
per-agent health flags. -/
structure LoadBalancer where
  agentLoads : List (String × Int)
  agentStatus : List (String × Bool)
deriving DecidableEq, Repr

def LoadBalancer.updateAgentLoad (lb : LoadBalancer) (agentId : String) (load : Int) :
    LoadBalancer :=
  { lb with agentLoads := aset lb.agentLoads agentId load }

def LoadBalancer.updateAgentStatus (lb : LoadBalancer) (agentId : String)
    (isHealthy : Bool) : LoadBalancer :=
  { lb with agentStatus := aset lb.agentStatus agentId isHealthy }

/-- LoadBalancer.selectBestAgent: drop candidates whose recorded status is
explicitly false, then scan for the lowest recorded load (missing loads count
as 0; the first candidate wins ties, strict improvement moves the choice). -/
def LoadBalancer.selectBestAgent (lb : LoadBalancer) (candidateAgents : List String) :
    Option String :=
  match candidateAgents.filter (fun a => alookup lb.agentStatus a ≠ some false) with
  | [] => none
  | h :: rest => some (rest.foldl (fun best cur =>
      if (alookup lb.agentLoads cur).getD 0 < (alookup lb.agentLoads best).getD 0
      then cur else best) h)

/-! ## Task scheduler (src task-scheduler module)

The dispatch step of the scheduler ends with an asynchronous simulated
execution on the chosen agent; that part runs in later event-loop turns and
is not part of the synchronous scheduling step embedded here. -/

/-- TaskScheduler.assignTaskToAgent: bump the chosen agent's load counter and
mark the task started; if startTask threw, the catch block fails the task
(the source throws before mutating, so the queue state reverts cleanly). -/
def TaskScheduler.assignTaskToAgent (lb : LoadBalancer) (s : TaskQueue) (task : Task)
    (agentId : String) (now : Int) : LoadBalancer × TaskQueue :=
  let currentLoad := (alookup lb.agentLoads agentId).getD 0
  let lb' := lb.updateAgentLoad agentId (currentLoad + 1)
  match TaskQueue.startTask s task.id now with
  | some s' => (lb', s')
  | none => (lb', (TaskQueue.failTask s task.id "Assignment failed" now).getD s)

/-- TaskScheduler.scheduleNextTask: dequeue (with no agent argument), route,
pick an agent, and either fail the task with a descriptive error or assign
it.  A failTask that cannot find the task would throw into the surrounding
catch, which only logs; the source throws before mutating, hence getD. -/
def TaskScheduler.scheduleNextTask (routeTable : List (String × List String))
    (lb : LoadBalancer) (s : TaskQueue) (now : Int) : LoadBalancer × TaskQueue :=
  match TaskQueue.dequeue s none now with
  | none => (lb, s)
  | some (task, s1) =>
      let capableAgents := TaskRouter.routeTask routeTable task
      if capableAgents.isEmpty then
        (lb, (TaskQueue.failTask s1 task.id "No capable agents available" now).getD s1)
      else
        match lb.selectBestAgent capableAgents with
        | none => (lb, (TaskQueue.failTask s1 task.id "No healthy agents available" now).getD s1)
        | some agentId => TaskScheduler.assignTaskToAgent lb s1 task agentId now

/-! ## Circuit breaker (src enhanced-communication module) -/

inductive CircuitState : Type
  | CLOSED | OPEN | HALF_OPEN
deriving DecidableEq, Repr

structure CircuitBreakerState where
  state : CircuitState
  failures : Nat
  last_failure_time : Int
  success_count : Nat
deriving DecidableEq, Repr

structure CircuitBreakerConfig where
  enabled : Bool
  failure_threshold : Nat
  recovery_timeout : Int
  monitoring_period : Int
deriving DecidableEq, Repr

/-- Breaker state created on agent registration. -/
def initCircuitBreakerState : CircuitBreakerState :=
  { state := CircuitState.CLOSED, failures := 0, last_failure_time := 0, success_count := 0 }

def initCircuitBreakerForAgent (cfg : CircuitBreakerConfig)
    (m : List (String × CircuitBreakerState)) (agentName : String) :
    List (String × CircuitBreakerState) :=
  if !cfg.enabled then m else aset m agentName initCircuitBreakerState

/-- Per-breaker part of updateCircuitBreaker: success resets failures and
counts successes (closing a HALF_OPEN breaker at 3); failure counts failures,
stamps last_failure_time, resets successes, and opens at the threshold. -/
def updateBreakerState (cfg : CircuitBreakerConfig) (b : CircuitBreakerState)
    (success : Bool) (now : Int) : CircuitBreakerState :=
  if success then
    let b1 := { b with failures := 0, success_count := b.success_count + 1 }
    if b1.state = CircuitState.HALF_OPEN ∧ 3 ≤ b1.success_count then
      { b1 with state := CircuitState.CLOSED, success_count := 0 }
    else b1
  else
    let b1 := { b with failures := b.failures + 1, last_failure_time := now,
                       success_count := 0 }
    if cfg.failure_threshold ≤ b1.failures then { b1 with state := CircuitState.OPEN }
    else b1

/-- updateCircuitBreaker: no-op when disabled or when the agent has no
breaker entry; otherwise update that entry in place. -/
def updateCircuitBreaker (cfg : CircuitBreakerConfig)
    (m : List (String × CircuitBreakerState)) (agentName : String) (success : Bool)
    (now : Int) : List (String × CircuitBreakerState) :=
  if !cfg.enabled then m
  else
    match alookup m agentName with
    | none => m
    | some b => aset m agentName (updateBreakerState cfg b success now)

/-- isCircuitBreakerOpen: an OPEN breaker past its recovery window flips to
HALF_OPEN and admits the call; otherwise OPEN rejects; anything else admits.
Returns the admission answer together with the (possibly updated) table. -/
def isCircuitBreakerOpen (cfg : CircuitBreakerConfig)
    (m : List (String × CircuitBreakerState)) (agentName : String) (now : Int) :
    Bool × List (String × CircuitBreakerState) :=
  if !cfg.enabled then (false, m)
  else
    match alookup m agentName with
    | none => (false, m)
    | some b =>
        if b.state = CircuitState.OPEN then
          if cfg.recovery_timeout < now - b.last_failure_time then
            (false, aset m agentName
              { b with state := CircuitState.HALF_OPEN, success_count := 0 })
          else (true, m)
        else (false, m)

/-- checkCircuitBreakerRecovery: the background sweep promoting every stale
OPEN breaker to HALF_OPEN. -/
def checkCircuitBreakerRecovery (cfg : CircuitBreakerConfig)
    (m : List (String × CircuitBreakerState)) (now : Int) :
    List (String × CircuitBreakerState) :=
  m.map (fun p =>
    if p.2.state = CircuitState.OPEN ∧ cfg.recovery_timeout < now - p.2.last_failure_time
    then (p.1, { p.2 with state := CircuitState.HALF_OPEN, success_count := 0 })
    else p)

/-! ## Rate limiter (src enhanced-communication module) -/

structure RateLimitConfig where
  enabled : Bool
  max_requests : Nat
  time_window : Int
deriving DecidableEq, Repr

/-- rateLimitMiddleware: filter the client's recorded timestamps down to the
sliding window; at or above max_requests reject with 429 leaving the table
untouched; otherwise record the request and admit. -/
def rateLimitMiddleware (cfg : RateLimitConfig) (rl : List (String × List Int))
    (clientIp : String) (now : Int) : Bool × List (String × List Int) :=
  let windowStart := now - cfg.time_window
  let requests := ((alookup rl clientIp).getD []).filter (fun t => decide (windowStart < t))
  if cfg.max_requests ≤ requests.length then (false, rl)
  else (true, aset rl clientIp (requests ++ [now]))

/-! ## Inbound message validation and batch handling
(src enhanced-communication module) -/

/-- Wire message.  The `from` and `to` fields are spelled `from'` and `to'`
(Lean keywords). -/
structure AgentMessage where
  from' : String
  to' : String
  type : String
  action : String
  data : String
  timestamp : Int
  message_id : String
deriving DecidableEq, Repr

/-- First required field that is JS-falsy (empty string, or 0 for the
numeric timestamp), in the source's check order. -/
def missingField (m : AgentMessage) : Option String :=
  if m.from' = "" then some "from"
  else if m.to' = "" then some "to"
  else if m.type = "" then some "type"
  else if m.action = "" then some "action"
  else if m.timestamp = 0 then some "timestamp"
  else if m.message_id = "" then some "message_id"
  else none

/-- validateMessage middleware for the single-message endpoint: required
fields, then the message-type whitelist, then the ±5-minute replay window.
Some error means a 400 response and no dispatch. -/
def validateMessage (m : AgentMessage) (now : Int) : Option String :=
  match missingField m with
  | some f => some ("Missing required field: " ++ f)
  | none =>
      if ¬ (m.type = "request" ∨ m.type = "response" ∨ m.type = "event") then
        some ("Invalid message type: " ++ m.type)
      else if 300000 < (now - m.timestamp).natAbs then
        some "Message timestamp too old or too new"
      else none

/-- Per-entry loop of validateBatchMessages: only the required fields are
checked (no type whitelist and no timestamp window on this path). -/
def batchMissingField : Nat → List AgentMessage → Option String
  | _, [] => none
  | i, m :: rest =>
      match missingField m with
      | some f => some ("Message " ++ toString i ++ " missing required field: " ++ f)
      | none => batchMissingField (i + 1) rest

/-- validateBatchMessages middleware for the batch endpoint: array shape is
the embedding's type, size capped at 100, then required fields per entry. -/
def validateBatchMessages (ms : List AgentMessage) : Option String :=
  if 100 < ms.length then some "Batch size cannot exceed 100 messages"
  else batchMissingField 0 ms

/-- handleBatchMessages: per entry, consult the sender's circuit breaker and
either record a breaker-open failure or dispatch to the handler and report
success to the breaker.  Handler dispatch itself is opaque and modelled as
succeeding (an unmatched action is only logged by the source). -/
def handleBatchMessages (cfg : CircuitBreakerConfig)
    (cb : List (String × CircuitBreakerState)) (ms : List AgentMessage) (now : Int) :
    List (String × Bool) × List (String × CircuitBreakerState) :=
  match ms with
  | [] => ([], cb)
  | m :: rest =>
      let r := isCircuitBreakerOpen cfg cb m.from' now
      if r.1 then
        let rec' := handleBatchMessages cfg r.2 rest now
        ((m.message_id, false) :: rec'.1, rec'.2)
      else
        let cb2 := updateCircuitBreaker cfg r.2 m.from' true now
        let rec' := handleBatchMessages cfg cb2 rest now
        ((m.message_id, true) :: rec'.1, rec'.2)

/-! ## Service registry (src service-registry module) -/

inductive ServiceStatus : Type
  | healthy | unhealthy | unknown
deriving DecidableEq, Repr

structure ServiceInstance where
  id : String
  name : String
  type : String
  host : String
  port : Nat
  status : ServiceStatus
  capabilities : List String
  metadata : List (String × String)
  last_heartbeat : Int
  registered_at : Int
  health_check_url : Option String
  version : Option String
  tags : List String
deriving DecidableEq, Repr

/-- Registration input: the ServiceInstance fields other than id,
registered_at and last_heartbeat (the source's Omit type). -/
structure NewService where
  name : String
  type : String
  host : String
  port : Nat
  status : ServiceStatus
  capabilities : List String
  metadata : List (String × String)
  health_check_url : Option String
  version : Option String
  tags : List String
deriving DecidableEq, Repr

/-- generateServiceId: name-host-port-now. -/
def generateServiceId (name host : String) (port : Nat) (now : Int) : String :=
  name ++ "-" ++ host ++ "-" ++ toString port ++ "-" ++ toString now

/-- ServiceRegistry.register: derive the id from name, host, port and the
clock, build the instance (forced healthy, stamped now) and Map.set it.
Returns the id, the new table, and whether the `updated` (rather than
`registered`) event fired, i.e. whether that exact id already existed. -/
def ServiceRegistry.register (services : List (String × ServiceInstance))
    (svc : NewService) (now : Int) :
    String × List (String × ServiceInstance) × Bool :=
  let serviceId := generateServiceId svc.name svc.host svc.port now
  let existing := alookup services serviceId
  let inst : ServiceInstance :=
    { id := serviceId, name := svc.name, type := svc.type, host := svc.host,
      port := svc.port, status := ServiceStatus.healthy,
      capabilities := svc.capabilities, metadata := svc.metadata,
      last_heartbeat := now, registered_at := now,
      health_check_url := svc.health_check_url, version := svc.version,
      tags := svc.tags }
  (serviceId, aset services serviceId inst, existing.isSome)

/-- ServiceRegistry.getAllServices. -/
def ServiceRegistry.getAllServices (services : List (String × ServiceInstance)) :
    List ServiceInstance :=
  services.map (·.2)

/-! ## Iterated breaker reports -/

/-- Iterate updateBreakerState with a fixed outcome and clock. -/
def iterBreaker (cfg : CircuitBreakerConfig) (success : Bool) (t : Int) :
    Nat → CircuitBreakerState → CircuitBreakerState
  | 0, b => b
  | n + 1, b => updateBreakerState cfg (iterBreaker cfg success t n b) success t

/-- Iterate updateCircuitBreaker for one agent with a fixed outcome and clock. -/
def iterUpdateCB (cfg : CircuitBreakerConfig) (agentName : String) (success : Bool)
    (t : Int) : Nat → List (String × CircuitBreakerState) →
    List (String × CircuitBreakerState)
  | 0, m => m
  | n + 1, m =>
      updateCircuitBreaker cfg (iterUpdateCB cfg agentName success t n m) agentName
        success t

theorem updateCircuitBreaker_lookup (cfg : CircuitBreakerConfig)
    (m : List (String × CircuitBreakerState)) (agentName : String) (success : Bool)
    (now : Int) (b : CircuitBreakerState) (hen : cfg.enabled = true)
    (hb : alookup m agentName = some b) :
    alookup (updateCircuitBreaker cfg m agentName success now) agentName =
      some (updateBreakerState cfg b success now) := by
  simp only [updateCircuitBreaker, hen, Bool.not_true, Bool.false_eq_true, if_false, hb]
  exact alookup_aset_self _ _ _

theorem iterUpdateCB_lookup (cfg : CircuitBreakerConfig) (agentName : String)
    (success : Bool) (t : Int) (hen : cfg.enabled = true) :
    ∀ (n : Nat) (m : List (String × CircuitBreakerState)) (b : CircuitBreakerState),
    alookup m agentName = some b →
    alookup (iterUpdateCB cfg agentName success t n m) agentName =
      some (iterBreaker cfg success t n b)
  | 0, _, _, hb => hb
  | n + 1, m, b, hb => by
      simp only [iterUpdateCB, iterBreaker]
      exact updateCircuitBreaker_lookup cfg _ agentName success t _ hen
        (iterUpdateCB_lookup cfg agentName success t hen n m b hb)

/-- Closed form for a run of consecutive failure reports starting from a
freshly initialised breaker. -/
theorem iterBreaker_failures (cfg : CircuitBreakerConfig) (t : Int) :
    ∀ n, 1 ≤ n →
    iterBreaker cfg false t n initCircuitBreakerState =
      { state := if cfg.failure_threshold ≤ n then CircuitState.OPEN
                 else CircuitState.CLOSED,
        failures := n, last_failure_time := t, success_count := 0 }
  | 0, h => absurd h (by omega)
  | 1, _ => by
      by_cases h : cfg.failure_threshold ≤ 1 <;>
        simp [iterBreaker, updateBreakerState, initCircuitBreakerState, h]
  | n + 2, _ => by
      rw [show iterBreaker cfg false t (n + 2) initCircuitBreakerState =
        updateBreakerState cfg (iterBreaker cfg false t (n + 1) initCircuitBreakerState)
          false t from rfl]
      rw [iterBreaker_failures cfg t (n + 1) (by omega)]
      by_cases h : cfg.failure_threshold ≤ n + 2
      · simp [updateBreakerState, h]
      · have h' : ¬ cfg.failure_threshold ≤ n + 1 := by omega
        simp [updateBreakerState, h, h']

/-- C2: for every peer with an initialised CLOSED breaker (and breaking
enabled, threshold at least 1): failure_threshold consecutive failure
reports at time t yield state OPEN; an admission check strictly more than
recovery_timeout after t admits the call and flips the breaker to HALF_OPEN;
three consecutive success reports then yield CLOSED with the success counter
reset to 0. -/
theorem c2_breaker_opens_and_recovers (cfg : CircuitBreakerConfig)
    (m : List (String × CircuitBreakerState)) (peer : String) (t now : Int)
    (hen : cfg.enabled = true) (hthr : 1 ≤ cfg.failure_threshold)
    (hinit : alookup m peer = some initCircuitBreakerState)
    (hrec : cfg.recovery_timeout < now - t) :
    alookup (iterUpdateCB cfg peer false t cfg.failure_threshold m) peer =
      some { state := CircuitState.OPEN, failures := cfg.failure_threshold,
             last_failure_time := t, success_count := 0 } ∧
    (isCircuitBreakerOpen cfg (iterUpdateCB cfg peer false t cfg.failure_threshold m)
        peer now).1 = false ∧
    alookup (isCircuitBreakerOpen cfg
        (iterUpdateCB cfg peer false t cfg.failure_threshold m) peer now).2 peer =
      some { state := CircuitState.HALF_OPEN, failures := cfg.failure_threshold,
             last_failure_time := t, success_count := 0 } ∧
    alookup (iterUpdateCB cfg peer true now 3 (isCircuitBreakerOpen cfg
        (iterUpdateCB cfg peer false t cfg.failure_threshold m) peer now).2) peer =
      some { state := CircuitState.CLOSED, failures := 0, last_failure_time := t,
             success_count := 0 } := by
  have h1 : alookup (iterUpdateCB cfg peer false t cfg.failure_threshold m) peer =
      some { state := CircuitState.OPEN, failures := cfg.failure_threshold,
             last_failure_time := t, success_count := 0 } := by
    rw [iterUpdateCB_lookup cfg peer false t hen cfg.failure_threshold m
      initCircuitBreakerState hinit, iterBreaker_failures cfg t cfg.failure_threshold hthr]
    simp
  have h2 : isCircuitBreakerOpen cfg
      (iterUpdateCB cfg peer false t cfg.failure_threshold m) peer now =
      (false, aset (iterUpdateCB cfg peer false t cfg.failure_threshold m) peer
        { state := CircuitState.HALF_OPEN, failures := cfg.failure_threshold,
          last_failure_time := t, success_count := 0 }) := by
    simp [isCircuitBreakerOpen, hen, h1, hrec]
  have h3 : alookup (isCircuitBreakerOpen cfg
      (iterUpdateCB cfg peer false t cfg.failure_threshold m) peer now).2 peer =
      some { state := CircuitState.HALF_OPEN, failures := cfg.failure_threshold,
             last_failure_time := t, success_count := 0 } := by
    rw [h2]
    exact alookup_aset_self _ _ _
  refine ⟨h1, by rw [h2], h3, ?_⟩
  rw [iterUpdateCB_lookup cfg peer true now hen 3 _ _ h3]
  simp [iterBreaker, updateBreakerState]

/-- Witness for C2 at threshold 2, recovery timeout 100, failures at time 0
and the admission check at time 101. -/
theorem c2_breaker_opens_and_recovers_witness :
    alookup (iterUpdateCB ⟨true, 2, 100, 0⟩ "p" false 0 2
        [("p", initCircuitBreakerState)]) "p" =
      some { state := CircuitState.OPEN, failures := 2, last_failure_time := 0,
             success_count := 0 } ∧
    (isCircuitBreakerOpen ⟨true, 2, 100, 0⟩ (iterUpdateCB ⟨true, 2, 100, 0⟩ "p" false 0 2
        [("p", initCircuitBreakerState)]) "p" 101).1 = false ∧
    alookup (isCircuitBreakerOpen ⟨true, 2, 100, 0⟩ (iterUpdateCB ⟨true, 2, 100, 0⟩ "p"
        false 0 2 [("p", initCircuitBreakerState)]) "p" 101).2 "p" =
      some { state := CircuitState.HALF_OPEN, failures := 2, last_failure_time := 0,
             success_count := 0 } ∧
    alookup (iterUpdateCB ⟨true, 2, 100, 0⟩ "p" true 101 3
        (isCircuitBreakerOpen ⟨true, 2, 100, 0⟩ (iterUpdateCB ⟨true, 2, 100, 0⟩ "p"
          false 0 2 [("p", initCircuitBreakerState)]) "p" 101).2) "p" =
      some { state := CircuitState.CLOSED, failures := 0, last_failure_time := 0,
             success_count := 0 } :=
  c2_breaker_opens_and_recovers ⟨true, 2, 100, 0⟩ [("p", initCircuitBreakerState)]
    "p" 0 101 rfl (by decide) (by decide) (by decide)

/-! ## Rate-limiter runs -/

/-- Run the rate-limit middleware over a sequence of request times from one
client, collecting the admission decisions. -/
def runRequests (cfg : RateLimitConfig) (clientIp : String) :
    List Int → List (String × List Int) → List (String × List Int) × List Bool
  | [], rl => (rl, [])
  | t :: ts, rl =>
      let r := rateLimitMiddleware cfg rl clientIp t
      let rest := runRequests cfg clientIp ts r.2
      (rest.1, r.1 :: rest.2)

theorem runRequests_admits (cfg : RateLimitConfig) (ip : String) (t1 : Int) :
    ∀ (post : List Int) (pre : List Int) (rl : List (String × List Int)),
    (alookup rl ip).getD [] = pre →
    pre.length + post.length = cfg.max_requests →
    (∀ x ∈ pre, t1 ≤ x) →
    (∀ x ∈ post, t1 ≤ x ∧ x < t1 + cfg.time_window) →
    (alookup (runRequests cfg ip post rl).1 ip).getD [] = pre ++ post ∧
    (runRequests cfg ip post rl).2 = List.replicate post.length true
  | [], pre, rl, hpre, _, _, _ => by
      simp [runRequests, hpre]
  | t :: ts, pre, rl, hpre, hlen, hpre_lb, hpost => by
      have ht := hpost t (List.mem_cons_self _ _)
      have hkeep : pre.filter (fun x => decide (t - cfg.time_window < x)) = pre := by
        rw [List.filter_eq_self]
        intro x hx
        have := hpre_lb x hx
        simp only [decide_eq_true_eq]
        omega
      have hlt : ¬ cfg.max_requests ≤ pre.length := by
        simp only [List.length_cons] at hlen
        omega
      have hstep : rateLimitMiddleware cfg rl ip t =
          (true, aset rl ip (pre ++ [t])) := by
        simp [rateLimitMiddleware, hpre, hkeep, hlt]
      have hih := runRequests_admits cfg ip t1 ts (pre ++ [t]) (aset rl ip (pre ++ [t]))
        (by rw [alookup_aset_self]; rfl)
        (by simp only [List.length_cons] at hlen
            simp only [List.length_append, List.length_cons, List.length_nil]
            omega)
        (by intro x hx
            rcases List.mem_append.mp hx with hx | hx
            · exact hpre_lb x hx
            · simp at hx; subst hx; exact ht.1)
        (fun x hx => hpost x (List.mem_cons_of_mem _ hx))
      refine ⟨?_, ?_⟩
      · simp only [runRequests, hstep]
        rw [hih.1, List.append_assoc]
        rfl
      · simp only [runRequests, hstep, List.length_cons]
        rw [hih.2]
        rfl

/-- C8: from an empty table, a client sending exactly max_requests requests
all inside one time_window of the first request time t1 has every request
admitted; one more request while the window still covers t1 is rejected with
the table unchanged; a request at or after t1 + time_window (the window has
slid past the oldest admitted timestamp) is admitted again. -/
theorem c8_rate_limiting (cfg : RateLimitConfig) (ip : String) (t1 : Int)
    (rest : List Int)
    (hlen : cfg.max_requests = (t1 :: rest).length)
    (hwin : ∀ x ∈ t1 :: rest, t1 ≤ x ∧ x < t1 + cfg.time_window) :
    (runRequests cfg ip (t1 :: rest) []).2 =
      List.replicate cfg.max_requests true ∧
    (alookup (runRequests cfg ip (t1 :: rest) []).1 ip).getD [] = t1 :: rest ∧
    (∀ tr : Int, tr < t1 + cfg.time_window →
      rateLimitMiddleware cfg (runRequests cfg ip (t1 :: rest) []).1 ip tr =
        (false, (runRequests cfg ip (t1 :: rest) []).1)) ∧
    (∀ t2 : Int, t1 + cfg.time_window ≤ t2 →
      (rateLimitMiddleware cfg (runRequests cfg ip (t1 :: rest) []).1 ip t2).1 = true) := by
  have hrun := runRequests_admits cfg ip t1 (t1 :: rest) [] []
    (by simp [alookup]) (by simpa using hlen.symm) (by simp) hwin
  have hfull : (alookup (runRequests cfg ip (t1 :: rest) []).1 ip).getD [] =
      t1 :: rest := by simpa using hrun.1
  refine ⟨by rw [hrun.2, hlen], hfull, ?_, ?_⟩
  · intro tr htr
    have hkeep : (t1 :: rest).filter (fun x => decide (tr - cfg.time_window < x)) =
        t1 :: rest := by
      rw [List.filter_eq_self]
      intro x hx
      have := hwin x hx
      simp only [decide_eq_true_eq]
      omega
    have hge : cfg.max_requests ≤
        ((t1 :: rest).filter (fun x => decide (tr - cfg.time_window < x))).length := by
      rw [hkeep, hlen]
    simp [rateLimitMiddleware, hfull, hge]
  · intro t2 ht2
    have hdrop : ¬ (decide (t2 - cfg.time_window < t1) = true) := by
      simp only [decide_eq_true_eq]
      omega
    have hlt : (rest.filter (fun x => decide (t2 - cfg.time_window < x))).length <
        cfg.max_requests := by
      have := List.length_filter_le (fun x => decide (t2 - cfg.time_window < x)) rest
      simp only [hlen, List.length_cons]
      omega
    simp [rateLimitMiddleware, hfull, hdrop, Nat.not_le.mpr hlt]

/-- Witness for C8: window 10, limit 2, requests at 0 and 5 admitted, a
request at 9 rejected, a request at 10 admitted again. -/
theorem c8_rate_limiting_witness :
    (runRequests ⟨true, 2, 10⟩ "c" [0, 5] []).2 = List.replicate 2 true ∧
    (alookup (runRequests ⟨true, 2, 10⟩ "c" [0, 5] []).1 "c").getD [] = [0, 5] ∧
    rateLimitMiddleware ⟨true, 2, 10⟩ (runRequests ⟨true, 2, 10⟩ "c" [0, 5] []).1 "c" 9 =
      (false, (runRequests ⟨true, 2, 10⟩ "c" [0, 5] []).1) ∧
    (rateLimitMiddleware ⟨true, 2, 10⟩ (runRequests ⟨true, 2, 10⟩ "c" [0, 5] []).1
      "c" 10).1 = true :=
  let h := c8_rate_limiting ⟨true, 2, 10⟩ "c" 0 [5] (by decide) (by decide)
  ⟨h.1, h.2.1, h.2.2.1 9 (by decide), h.2.2.2 10 (by decide)⟩

/-! ## Message-validation facts -/

theorem batchMissingField_eq_none (ms : List AgentMessage) :
    ∀ i, batchMissingField i ms = none ↔ ∀ x ∈ ms, missingField x = none := by
  induction ms with
  | nil => intro i; simp [batchMissingField]
  | cons m rest ih =>
      intro i
      cases hm : missingField m with
      | some f => simp [batchMissingField, hm]
      | none =>
          simp only [batchMissingField, hm]
          rw [ih (i + 1)]
          constructor
          · intro h x hx
            rcases List.mem_cons.mp hx with hx | hx
            · subst hx; exact hm
            · exact h x hx
          · intro h x hx
            exact h x (List.mem_cons_of_mem _ hx)

theorem isCircuitBreakerOpen_nil (cfg : CircuitBreakerConfig) (agentName : String)
    (now : Int) : isCircuitBreakerOpen cfg [] agentName now = (false, []) := by
  cases h : cfg.enabled <;> simp [isCircuitBreakerOpen, h, alookup]

theorem updateCircuitBreaker_nil (cfg : CircuitBreakerConfig) (agentName : String)
    (success : Bool) (now : Int) :
    updateCircuitBreaker cfg [] agentName success now = [] := by
  cases h : cfg.enabled <;> simp [updateCircuitBreaker, h, alookup]

/-- C9 (amended): on the single-message endpoint, any message whose timestamp
deviates from receipt time by more than 300000 ms is rejected by the
validateMessage middleware (so it is never dispatched); the batch endpoint's
middleware, however, checks only the batch size and the presence of required
fields — it is independent of timestamps — and with no breaker entry for the
senders every batch entry, deviant timestamp or not, is dispatched to the
handler. -/
theorem c9_replay_window (m : AgentMessage) (now : Int) (ms : List AgentMessage)
    (cfg : CircuitBreakerConfig)
    (hdev : 300000 < (now - m.timestamp).natAbs) :
    (validateMessage m now).isSome = true ∧
    (validateBatchMessages ms = none ↔
      ms.length ≤ 100 ∧ ∀ x ∈ ms, missingField x = none) ∧
    handleBatchMessages cfg [] ms now = (ms.map (fun x => (x.message_id, true)), []) := by
  refine ⟨?_, ?_, ?_⟩
  · cases hmf : missingField m with
    | some f => simp [validateMessage, hmf]
    | none =>
        by_cases htype : m.type = "request" ∨ m.type = "response" ∨ m.type = "event" <;>
          simp [validateMessage, hmf, htype, hdev]
  · simp only [validateBatchMessages]
    by_cases hlen : 100 < ms.length
    · simp only [if_pos hlen]
      constructor
      · intro h; exact Option.noConfusion h
      · rintro ⟨h1, -⟩; omega
    · simp only [if_neg hlen]
      rw [batchMissingField_eq_none ms 0]
      constructor
      · intro h; exact ⟨by omega, h⟩
      · intro h; exact h.2
  · induction ms with
    | nil => simp [handleBatchMessages]
    | cons x rest ih =>
        simp [handleBatchMessages, isCircuitBreakerOpen_nil, updateCircuitBreaker_nil, ih]

/-- Witness for C9 (amended) on a message 400000 ms in the future. -/
theorem c9_replay_window_witness :
    (validateMessage ⟨"a", "b", "request", "act", "d", 400000, "mid"⟩ 0).isSome = true ∧
    (validateBatchMessages [⟨"a", "b", "request", "act", "d", 400000, "mid"⟩] = none ↔
      ([⟨"a", "b", "request", "act", "d", 400000, "mid"⟩] : List AgentMessage).length ≤ 100 ∧
      ∀ x ∈ [(⟨"a", "b", "request", "act", "d", 400000, "mid"⟩ : AgentMessage)],
        missingField x = none) ∧
    handleBatchMessages ⟨true, 5, 30000, 60000⟩ []
        [⟨"a", "b", "request", "act", "d", 400000, "mid"⟩] 0 =
      ([(⟨"a", "b", "request", "act", "d", 400000, "mid"⟩ : AgentMessage)].map
        (fun x => (x.message_id, true)), []) :=
  c9_replay_window ⟨"a", "b", "request", "act", "d", 400000, "mid"⟩ 0
    [⟨"a", "b", "request", "act", "d", 400000, "mid"⟩] ⟨true, 5, 30000, 60000⟩ (by decide)

/-- C9 counterexample: a message whose timestamp deviates by 400000 ms is
rejected on the single endpoint but passes batch validation unchanged and is
dispatched by the batch handler, against the claim that the batch path
rejects it equally. -/
theorem c9_counterexample :
    validateMessage ⟨"a", "b", "request", "act", "d", 400000, "mid"⟩ 0 =
      some "Message timestamp too old or too new" ∧
    validateBatchMessages [⟨"a", "b", "request", "act", "d", 400000, "mid"⟩] = none ∧
    (handleBatchMessages ⟨true, 5, 30000, 60000⟩ []
        [⟨"a", "b", "request", "act", "d", 400000, "mid"⟩] 0).1 = [("mid", true)] := by
  refine ⟨?_, ?_, ?_⟩ <;> decide

/-! ## Service-registry re-registration -/

theorem aset_alookup_preserved {κ α : Type} [DecidableEq κ] (m : List (κ × α))
    (k k' : κ) (v : α) (h : k ≠ k') : alookup (aset m k v) k' = alookup m k' :=
  alookup_aset_ne m k k' v h

/-- C4 (amended): re-registering a service with the same name, host and port
derives the id name-host-port-now; when that id differs from the existing
entry's id (a re-registration at a different millisecond), a fresh entry is
created and the old entry remains present in the registry; only when the
generated id coincides with the existing id is the entry overwritten in
place, with the updated (rather than registered) event firing. -/
theorem c4_register_new_epoch (services : List (String × ServiceInstance))
    (svc : NewService) (now : Int) (oldId : String) (oldInst : ServiceInstance)
    (hold : alookup services oldId = some oldInst) :
    (generateServiceId svc.name svc.host svc.port now ≠ oldId →
      alookup (ServiceRegistry.register services svc now).2.1 oldId = some oldInst ∧
      alookup (ServiceRegistry.register services svc now).2.1
          (generateServiceId svc.name svc.host svc.port now) =
        some { id := generateServiceId svc.name svc.host svc.port now, name := svc.name,
               type := svc.type, host := svc.host, port := svc.port,
               status := ServiceStatus.healthy, capabilities := svc.capabilities,
               metadata := svc.metadata, last_heartbeat := now, registered_at := now,
               health_check_url := svc.health_check_url, version := svc.version,
               tags := svc.tags }) ∧
    (generateServiceId svc.name svc.host svc.port now = oldId →
      alookup (ServiceRegistry.register services svc now).2.1 oldId =
        some { id := generateServiceId svc.name svc.host svc.port now, name := svc.name,
               type := svc.type, host := svc.host, port := svc.port,
               status := ServiceStatus.healthy, capabilities := svc.capabilities,
               metadata := svc.metadata, last_heartbeat := now, registered_at := now,
               health_check_url := svc.health_check_url, version := svc.version,
               tags := svc.tags } ∧
      (ServiceRegistry.register services svc now).2.2 = true) := by
  constructor
  · intro hne
    constructor
    · simp only [ServiceRegistry.register]
      rw [alookup_aset_ne services _ oldId _ hne]
      exact hold
    · simp only [ServiceRegistry.register]
      exact alookup_aset_self _ _ _
  · intro heq
    constructor
    · simp only [ServiceRegistry.register]
      rw [heq]
      exact alookup_aset_self _ _ _
    · simp only [ServiceRegistry.register, heq, hold]
      rfl

/-- Witness for C4 (amended): one registered instance, a re-registration at
a later millisecond; the old entry survives and the new one is added. -/
theorem c4_register_new_epoch_witness :
    alookup (ServiceRegistry.register
        [("a-h-1-1000", ⟨"a-h-1-1000", "a", "t", "h", 1, ServiceStatus.healthy, [], [],
          1000, 1000, none, none, []⟩)]
        ⟨"a", "t", "h", 1, ServiceStatus.unknown, [], [], none, none, []⟩ 2000).2.1
      "a-h-1-1000" =
      some ⟨"a-h-1-1000", "a", "t", "h", 1, ServiceStatus.healthy, [], [],
        1000, 1000, none, none, []⟩ ∧
    alookup (ServiceRegistry.register
        [("a-h-1-1000", ⟨"a-h-1-1000", "a", "t", "h", 1, ServiceStatus.healthy, [], [],
          1000, 1000, none, none, []⟩)]
        ⟨"a", "t", "h", 1, ServiceStatus.unknown, [], [], none, none, []⟩ 2000).2.1
      (generateServiceId "a" "h" 1 2000) =
      some { id := generateServiceId "a" "h" 1 2000, name := "a", type := "t",
             host := "h", port := 1, status := ServiceStatus.healthy,
             capabilities := [], metadata := [], last_heartbeat := 2000,
             registered_at := 2000, health_check_url := none, version := none,
             tags := [] } :=
  (c4_register_new_epoch
    [("a-h-1-1000", ⟨"a-h-1-1000", "a", "t", "h", 1, ServiceStatus.healthy, [], [],
      1000, 1000, none, none, []⟩)]
    ⟨"a", "t", "h", 1, ServiceStatus.unknown, [], [], none, none, []⟩ 2000
    "a-h-1-1000" _ rfl).1 (by decide)

/-- C4 counterexample: register (name a, host h, port 1) at time 1000, then
again at time 2000; the generated ids differ and the original entry is still
present afterwards, against the claim that the old entry is superseded. -/
theorem c4_counterexample :
    (ServiceRegistry.register (ServiceRegistry.register []
        ⟨"a", "t", "h", 1, ServiceStatus.unknown, [], [], none, none, []⟩ 1000).2.1
        ⟨"a", "t", "h", 1, ServiceStatus.unknown, [], [], none, none, []⟩ 2000).1 ≠
      (ServiceRegistry.register []
        ⟨"a", "t", "h", 1, ServiceStatus.unknown, [], [], none, none, []⟩ 1000).1 ∧
    (alookup (ServiceRegistry.register (ServiceRegistry.register []
        ⟨"a", "t", "h", 1, ServiceStatus.unknown, [], [], none, none, []⟩ 1000).2.1
        ⟨"a", "t", "h", 1, ServiceStatus.unknown, [], [], none, none, []⟩ 2000).2.1
      (ServiceRegistry.register []
        ⟨"a", "t", "h", 1, ServiceStatus.unknown, [], [], none, none, []⟩ 1000).1).isSome
      = true := by
  refine ⟨?_, ?_⟩ <;> decide

/-! ## cancelTask and assigned_agent behaviour -/

/-- C6 (amended): cancelTask on an id found in the pending collection splices
the task out, sets status CANCELLED (stamping only updated_at — completed_at
is not recorded on this branch) and moves it to the completed store; on an id
in the processing set it additionally records completed_at = now; on an id in
neither the call silently leaves the queue state unchanged. -/
theorem c6_cancelTask (s : TaskQueue) (taskId : Nat) (now : Int) :
    (∀ t, s.queue.find? (fun x => x.id = taskId) = some t →
      TaskQueue.cancelTask s taskId now =
        { s with queue := removeFirstTask s.queue taskId,
                 completed := aset s.completed taskId
                   { t with status := TaskStatus.CANCELLED, updated_at := now } }) ∧
    (s.queue.find? (fun x => x.id = taskId) = none →
      ∀ t, alookup s.processing taskId = some t →
      TaskQueue.cancelTask s taskId now =
        { s with processing := adel s.processing taskId,
                 completed := aset s.completed taskId
                   { t with status := TaskStatus.CANCELLED, updated_at := now,
                            completed_at := some now } }) ∧
    (s.queue.find? (fun x => x.id = taskId) = none →
      alookup s.processing taskId = none →
      TaskQueue.cancelTask s taskId now = s) := by
  refine ⟨?_, ?_, ?_⟩
  · intro t hfind
    simp [TaskQueue.cancelTask, hfind]
  · intro hfind t hproc
    simp [TaskQueue.cancelTask, hfind, hproc]
  · intro hfind hproc
    simp [TaskQueue.cancelTask, hfind, hproc]

/-- Witness for C6 (amended): cancelling the sole pending task (the state
produced by one enqueue into an empty queue) while it is pending. -/
theorem c6_cancelTask_witness :
    TaskQueue.cancelTask
      { queue := [⟨0, "collect_news", none, 2, TaskStatus.PENDING, "", none, none, 100,
          100, none, none, none, none, 0, 3, 1000, [], []⟩],
        processing := [], completed := [], config := ⟨5, 1000, 3, 0, 0, 7⟩,
        nextId := 1 } 0 200 =
      { queue := [], processing := [],
        completed := [(0, ⟨0, "collect_news", none, 2, TaskStatus.CANCELLED, "", none,
          none, 100, 200, none, none, none, none, 0, 3, 1000, [], []⟩)],
        config := ⟨5, 1000, 3, 0, 0, 7⟩, nextId := 1 } :=
  (c6_cancelTask
    { queue := [⟨0, "collect_news", none, 2, TaskStatus.PENDING, "", none, none, 100,
        100, none, none, none, none, 0, 3, 1000, [], []⟩],
      processing := [], completed := [], config := ⟨5, 1000, 3, 0, 0, 7⟩,
      nextId := 1 } 0 200).1
    ⟨0, "collect_news", none, 2, TaskStatus.PENDING, "", none, none, 100, 100, none,
      none, none, none, 0, 3, 1000, [], []⟩ (by decide)

/-- C6 counterexample: cancelling the pending task of a one-task queue moves
it to the completed store with status CANCELLED but with no completed_at
recorded, against the claim that cancelTask records completed_at = now. -/
theorem c6_counterexample :
    (alookup (TaskQueue.cancelTask
        { queue := [⟨0, "collect_news", none, 2, TaskStatus.PENDING, "", none, none,
            100, 100, none, none, none, none, 0, 3, 1000, [], []⟩],
          processing := [], completed := [], config := ⟨5, 1000, 3, 0, 0, 7⟩,
          nextId := 1 } 0 200).completed 0).map (fun t => (t.status, t.completed_at)) =
      some (TaskStatus.CANCELLED, none) := by
  decide

/-- C5 (amended): assigned_agent is written by dequeue with exactly the
optionally-supplied agent id (so dequeueing with none — as the scheduler
does — leaves an ASSIGNED task with no agent); the failTask retry branch
clears assigned_agent, assigned_at and started_at; completeTask moves the
task to the completed store while leaving assigned_agent untouched, so
completed tasks retain whatever agent was recorded. -/
theorem c5_assigned_agent (s : TaskQueue) (agentId : Option String) (now : Int)
    (taskId : Nat) (result error : String) :
    (∀ t s', TaskQueue.dequeue s agentId now = some (t, s') →
      t.assigned_agent = agentId ∧ t.status = TaskStatus.ASSIGNED) ∧
    (∀ t, alookup s.processing taskId = some t →
      TaskQueue.completeTask s taskId result now =
        some { s with processing := adel s.processing taskId,
                      completed := aset s.completed taskId
                        { t with status := TaskStatus.COMPLETED, result := some result,
                                 completed_at := some now, updated_at := now } }) ∧
    (∀ t, alookup s.processing taskId = some t →
      t.retry_count + 1 < t.max_retries →
      TaskQueue.failTask s taskId error now =
        some { s with processing := adel s.processing taskId,
                      queue := s.queue ++
                        [{ t with retry_count := t.retry_count + 1, error := some error,
                                  updated_at := now, status := TaskStatus.PENDING,
                                  assigned_agent := none, assigned_at := none,
                                  started_at := none }] }) := by
  refine ⟨?_, ?_, ?_⟩
  · intro t s' hdeq
    cases hq : s.queue with
    | nil =>
        rw [TaskQueue.dequeue, hq] at hdeq
        exact Option.noConfusion hdeq
    | cons t0 rest =>
        simp only [TaskQueue.dequeue, hq] at hdeq
        by_cases hcap : s.config.max_concurrent_tasks ≤ s.processing.length
        · rw [if_pos hcap] at hdeq; exact Option.noConfusion hdeq
        · rw [if_neg hcap] at hdeq
          simp only [Option.some.injEq, Prod.mk.injEq] at hdeq
          rw [← hdeq.1]
          exact ⟨rfl, rfl⟩
  · intro t hproc
    simp [TaskQueue.completeTask, hproc]
  · intro t hproc hretry
    have hnot : ¬ t.max_retries ≤ t.retry_count + 1 := by omega
    simp [TaskQueue.failTask, hproc, hnot]

/-- Witness for C5 (amended) on a queue with one pending and one processing
task: dequeueing with agent a1 stamps that agent, and completing the
processing task preserves its assigned_agent in the completed store. -/
theorem c5_assigned_agent_witness :
    ((⟨0, "collect_news", none, 2, TaskStatus.ASSIGNED, "", none, none, 100, 150,
        some "a1", some 150, none, none, 0, 3, 1000, [], []⟩ : Task).assigned_agent =
      some "a1" ∧
      (⟨0, "collect_news", none, 2, TaskStatus.ASSIGNED, "", none, none, 100, 150,
        some "a1", some 150, none, none, 0, 3, 1000, [], []⟩ : Task).status =
      TaskStatus.ASSIGNED) ∧
    TaskQueue.completeTask
      { queue := [⟨0, "collect_news", none, 2, TaskStatus.PENDING, "", none, none, 100,
          100, none, none, none, none, 0, 3, 1000, [], []⟩],
        processing := [(5, ⟨5, "detect_risks", none, 3, TaskStatus.RUNNING, "", none,
          none, 90, 95, some "a2", some 92, some 95, none, 0, 3, 1000, [], []⟩)],
        completed := [], config := ⟨5, 1000, 3, 0, 0, 7⟩, nextId := 6 } 5 "res" 150 =
      some { queue := [⟨0, "collect_news", none, 2, TaskStatus.PENDING, "", none, none,
               100, 100, none, none, none, none, 0, 3, 1000, [], []⟩],
             processing := [], completed := [(5, ⟨5, "detect_risks", none, 3,
               TaskStatus.COMPLETED, "", some "res", none, 90, 150, some "a2", some 92,
               some 95, some 150, 0, 3, 1000, [], []⟩)],
             config := ⟨5, 1000, 3, 0, 0, 7⟩, nextId := 6 } := by
  have h := c5_assigned_agent
    { queue := [⟨0, "collect_news", none, 2, TaskStatus.PENDING, "", none, none, 100,
        100, none, none, none, none, 0, 3, 1000, [], []⟩],
      processing := [(5, ⟨5, "detect_risks", none, 3, TaskStatus.RUNNING, "", none,
        none, 90, 95, some "a2", some 92, some 95, none, 0, 3, 1000, [], []⟩)],
      completed := [], config := ⟨5, 1000, 3, 0, 0, 7⟩, nextId := 6 }
    (some "a1") 150 5 "res" "err"
  refine ⟨h.1 _ _ rfl, ?_⟩
  have h2 := h.2.1 _ rfl
  rw [h2]
  rfl

/-- C5 counterexample: starting from a queue holding one pending task,
dequeue to agent a1, start and complete it; the completed-store task has
status COMPLETED yet assigned_agent still set to a1, against the claimed iff
between assigned_agent presence and status being ASSIGNED or RUNNING. -/
theorem c5_counterexample :
    ((TaskQueue.dequeue
        { queue := [⟨0, "collect_news", none, 2, TaskStatus.PENDING, "", none, none,
            100, 100, none, none, none, none, 0, 3, 1000, [], []⟩],
          processing := [], completed := [], config := ⟨5, 1000, 3, 0, 0, 7⟩,
          nextId := 1 } (some "a1") 150).bind (fun p =>
      (TaskQueue.startTask p.2 0 160).bind (fun s =>
        TaskQueue.completeTask s 0 "res" 170))).map (fun s =>
      (alookup s.completed 0).map (fun t => (t.status, t.assigned_agent))) =
      some (some (TaskStatus.COMPLETED, some "a1")) := by
  decide

/-! ## Scheduling a task whose type has no route -/

theorem adel_aset_self_of_not_mem {κ α : Type} [DecidableEq κ] {m : List (κ × α)}
    {k : κ} (v : α) (h : k ∉ akeys m) : adel (aset m k v) k = m := by
  induction m with
  | nil => simp [aset, adel]
  | cons p rest ih =>
      obtain ⟨k₀, v₀⟩ := p
      simp only [akeys, List.map_cons, List.mem_cons] at h
      push_neg at h
      have h₀ : ¬ k₀ = k := fun hh => h.1 hh.symm
      simp only [aset, if_neg h₀, adel, if_neg h₀]
      rw [ih h.2]

theorem TaskQueue.dequeue_cons (s : TaskQueue) (agentId : Option String) (now : Int)
    (t : Task) (rest : List Task) (hq : s.queue = t :: rest)
    (hcap : s.processing.length < s.config.max_concurrent_tasks) :
    TaskQueue.dequeue s agentId now =
      some ({ t with status := TaskStatus.ASSIGNED, assigned_agent := agentId,
                     assigned_at := some now, updated_at := now },
            { s with queue := rest,
                     processing := aset s.processing t.id
                       { t with status := TaskStatus.ASSIGNED, assigned_agent := agentId,
                                assigned_at := some now, updated_at := now } }) := by
  have hnot : ¬ s.config.max_concurrent_tasks ≤ s.processing.length := by omega
  simp [TaskQueue.dequeue, hq, hnot]

/-- C1 (amended): when the scheduler dequeues a task whose type routes to the
empty set, it fails the task via failTask with the routing-error message "No
capable agents available"; failTask increments retry_count, so the task
transitions to FAILED (moved to the completed store, retry_count = old + 1)
exactly when the incremented count reaches max_retries — immediate only for
max_retries ≤ 1 — and is otherwise reset to PENDING and appended back to the
pending collection for another attempt. -/
theorem c1_routing_failure (routeTable : List (String × List String))
    (lb : LoadBalancer) (s : TaskQueue) (now : Int) (t : Task) (rest : List Task)
    (hq : s.queue = t :: rest)
    (hcap : s.processing.length < s.config.max_concurrent_tasks)
    (hnp : t.id ∉ akeys s.processing)
    (hroute : TaskRouter.routeTask routeTable t = []) :
    TaskScheduler.scheduleNextTask routeTable lb s now =
      (lb,
        if t.max_retries ≤ t.retry_count + 1 then
          { s with queue := rest,
                   completed := aset s.completed t.id
                     { t with status := TaskStatus.FAILED, assigned_agent := none,
                              assigned_at := some now, updated_at := now,
                              retry_count := t.retry_count + 1,
                              error := some "No capable agents available",
                              completed_at := some now } }
        else
          { s with queue := rest ++
                     [{ t with status := TaskStatus.PENDING, assigned_agent := none,
                               assigned_at := none, started_at := none,
                               updated_at := now, retry_count := t.retry_count + 1,
                               error := some "No capable agents available" }] }) := by
  have hdeq := TaskQueue.dequeue_cons s none now t rest hq hcap
  have hroute' : TaskRouter.routeTask routeTable
      { t with status := TaskStatus.ASSIGNED, assigned_agent := none,
               assigned_at := some now, updated_at := now } = [] := hroute
  simp only [TaskScheduler.scheduleNextTask, hdeq, hroute', List.isEmpty_nil, if_true]
  rw [TaskQueue.failTask]
  rw [show alookup (aset s.processing t.id
      { t with status := TaskStatus.ASSIGNED, assigned_agent := none,
               assigned_at := some now, updated_at := now }) t.id =
    some { t with status := TaskStatus.ASSIGNED, assigned_agent := none,
                  assigned_at := some now, updated_at := now } from
    alookup_aset_self _ _ _]
  by_cases hmr : t.max_retries ≤ t.retry_count + 1
  · simp only [if_pos hmr, Option.getD_some]
    rw [adel_aset_self_of_not_mem _ hnp]
  · simp only [if_neg hmr, Option.getD_some]
    rw [adel_aset_self_of_not_mem _ hnp]

/-- Witness for C1 (amended): an unknown_type task with max_retries 2 in a
one-task queue under the initial route table. -/
theorem c1_routing_failure_witness :
    TaskScheduler.scheduleNextTask initialRoutes ⟨[], []⟩
      { queue := [⟨0, "unknown_type", none, 2, TaskStatus.PENDING, "", none, none, 100,
          100, none, none, none, none, 0, 2, 1000, [], []⟩],
        processing := [], completed := [], config := ⟨5, 1000, 3, 0, 0, 7⟩,
        nextId := 1 } 150 =
      (⟨[], []⟩,
        if (2 : Nat) ≤ 0 + 1 then
          { queue := ([] : List Task), processing := [],
            completed := aset [] 0
              (⟨0, "unknown_type", none, 2, TaskStatus.FAILED, "", none,
                some "No capable agents available", 100, 150, none, some 150, none,
                some 150, 0 + 1, 2, 1000, [], []⟩ : Task),
            config := ⟨5, 1000, 3, 0, 0, 7⟩, nextId := 1 }
        else
          { queue := [] ++
              [⟨0, "unknown_type", none, 2, TaskStatus.PENDING, "", none,
                some "No capable agents available", 100, 150, none, none, none, none,
                0 + 1, 2, 1000, [], []⟩],
            processing := [], completed := [], config := ⟨5, 1000, 3, 0, 0, 7⟩,
            nextId := 1 }) :=
  c1_routing_failure initialRoutes ⟨[], []⟩
    { queue := [⟨0, "unknown_type", none, 2, TaskStatus.PENDING, "", none, none, 100,
        100, none, none, none, none, 0, 2, 1000, [], []⟩],
      processing := [], completed := [], config := ⟨5, 1000, 3, 0, 0, 7⟩,
      nextId := 1 } 150
    (⟨0, "unknown_type", none, 2, TaskStatus.PENDING, "", none, none, 100, 100, none,
      none, none, none, 0, 2, 1000, [], []⟩ : Task) [] rfl (by decide) (by decide)
    (by decide)

/-- C1 counterexample: scheduling an unroutable task with max_retries 2 does
not fail it immediately — it is re-queued as PENDING with retry_count bumped
to 1 and the completed store stays empty, against the claim of an immediate
FAILED with retry_count unchanged regardless of max_retries. -/
theorem c1_counterexample :
    ((TaskScheduler.scheduleNextTask initialRoutes ⟨[], []⟩
        { queue := [⟨0, "unknown_type", none, 2, TaskStatus.PENDING, "", none, none,
            100, 100, none, none, none, none, 0, 2, 1000, [], []⟩],
          processing := [], completed := [], config := ⟨5, 1000, 3, 0, 0, 7⟩,
          nextId := 1 } 150).2.queue.map (fun t => (t.id, t.status, t.retry_count))) =
      [(0, TaskStatus.PENDING, 1)] ∧
    (TaskScheduler.scheduleNextTask initialRoutes ⟨[], []⟩
        { queue := [⟨0, "unknown_type", none, 2, TaskStatus.PENDING, "", none, none,
            100, 100, none, none, none, none, 0, 2, 1000, [], []⟩],
          processing := [], completed := [], config := ⟨5, 1000, 3, 0, 0, 7⟩,
          nextId := 1 } 150).2.completed = [] := by
  refine ⟨?_, ?_⟩ <;> decide

/-! ## Retry exhaustion -/

/-- One dequeue-then-fail cycle: the scheduler-style dequeue (no agent
argument) immediately followed by a failTask on the dequeued task. -/
def failCycle (s : TaskQueue) (msg : String) (now : Int) : Option TaskQueue :=
  (TaskQueue.dequeue s none now).bind (fun p => TaskQueue.failTask p.2 p.1.id msg now)

/-- Iterate dequeue-then-fail cycles. -/
def iterFailCycle (msg : String) (now : Int) : Nat → TaskQueue → Option TaskQueue
  | 0, s => some s
  | n + 1, s => (iterFailCycle msg now n s).bind (fun q => failCycle q msg now)

/-- The sole task after k failed attempts: PENDING again, retry_count k, the
error recorded, the assignment fields cleared. -/
def taskAfter (t0 : Task) (msg : String) (τ : Int) (k : Nat) : Task :=
  { t0 with retry_count := k, status := TaskStatus.PENDING, error := some msg,
            updated_at := τ, assigned_agent := none, assigned_at := none,
            started_at := none }

theorem failCycle_step (s : TaskQueue) (t : Task) (msg : String) (τ : Int)
    (hq : s.queue = [t]) (hp : s.processing = [])
    (hcc : 1 ≤ s.config.max_concurrent_tasks) :
    failCycle s msg τ = some (
      if t.max_retries ≤ t.retry_count + 1 then
        { s with queue := [], processing := [],
                 completed := aset s.completed t.id
                   { t with status := TaskStatus.FAILED, assigned_agent := none,
                            assigned_at := some τ, updated_at := τ,
                            retry_count := t.retry_count + 1, error := some msg,
                            completed_at := some τ } }
      else
        { s with queue := [{ t with status := TaskStatus.PENDING,
                                    assigned_agent := none, assigned_at := none,
                                    started_at := none, updated_at := τ,
                                    retry_count := t.retry_count + 1,
                                    error := some msg }],
                 processing := [] }) := by
  have hcap : s.processing.length < s.config.max_concurrent_tasks := by
    rw [hp]; simpa using hcc
  have hdeq := TaskQueue.dequeue_cons s none τ t [] hq hcap
  by_cases hmr : t.max_retries ≤ t.retry_count + 1
  · simp [failCycle, hdeq, TaskQueue.failTask, hp, aset, alookup, adel, hmr]
  · simp [failCycle, hdeq, TaskQueue.failTask, hp, aset, alookup, adel, hmr]

theorem iterFailCycle_mid (s : TaskQueue) (t0 : Task) (msg : String) (τ : Int) (n : Nat)
    (hq : s.queue = [t0]) (hp : s.processing = [])
    (hcc : 1 ≤ s.config.max_concurrent_tasks)
    (hrc : t0.retry_count = 0) (hmr : t0.max_retries = n) :
    ∀ k, 1 ≤ k → k < n →
    iterFailCycle msg τ k s =
      some { s with queue := [taskAfter t0 msg τ k], processing := [] }
  | 0, h1, _ => absurd h1 (by omega)
  | 1, _, hlt => by
      have hnotmr : ¬ t0.max_retries ≤ t0.retry_count + 1 := by omega
      rw [show iterFailCycle msg τ 1 s = (iterFailCycle msg τ 0 s).bind
        (fun q => failCycle q msg τ) from rfl]
      simp only [iterFailCycle, Option.some_bind]
      rw [failCycle_step s t0 msg τ hq hp hcc, if_neg hnotmr]
      simp [taskAfter, hrc]
  | k + 2, _, hlt => by
      have hmid := iterFailCycle_mid s t0 msg τ n hq hp hcc hrc hmr (k + 1)
        (by omega) (by omega)
      rw [show iterFailCycle msg τ (k + 2) s = (iterFailCycle msg τ (k + 1) s).bind
        (fun q => failCycle q msg τ) from rfl, hmid, Option.some_bind]
      have hnotmr : ¬ (taskAfter t0 msg τ (k + 1)).max_retries ≤
          (taskAfter t0 msg τ (k + 1)).retry_count + 1 := by
        simp only [taskAfter]
        omega
      rw [failCycle_step _ (taskAfter t0 msg τ (k + 1)) msg τ rfl rfl (by simpa using hcc),
        if_neg hnotmr]
      simp only [taskAfter]

/-- C7: a sole PENDING task with retry_count 0 and max_retries = n ≥ 1 that
is repeatedly dequeued and failed is re-inserted into the pending collection
after each of the first n−1 failTask calls — PENDING again with retry_count k
and assigned_agent, assigned_at and started_at cleared — and after exactly n
failTask calls it is FAILED and moved to the completed store with
retry_count = n. -/
theorem c7_retry_exhaustion (s : TaskQueue) (t0 : Task) (msg : String) (τ : Int)
    (n : Nat) (hq : s.queue = [t0]) (hp : s.processing = [])
    (hcc : 1 ≤ s.config.max_concurrent_tasks)
    (hrc : t0.retry_count = 0) (hst : t0.started_at = none)
    (hmr : t0.max_retries = n) (hn : 1 ≤ n) :
    (∀ k, 1 ≤ k → k < n →
      iterFailCycle msg τ k s =
        some { s with queue := [taskAfter t0 msg τ k], processing := [] }) ∧
    iterFailCycle msg τ n s =
      some { s with queue := [], processing := [],
                    completed := aset s.completed t0.id
                      { t0 with status := TaskStatus.FAILED, assigned_agent := none,
                                assigned_at := some τ, started_at := none,
                                updated_at := τ, retry_count := n, error := some msg,
                                completed_at := some τ } } := by
  refine ⟨iterFailCycle_mid s t0 msg τ n hq hp hcc hrc hmr, ?_⟩
  obtain ⟨m, rfl⟩ : ∃ m, n = m + 1 := ⟨n - 1, by omega⟩
  by_cases hm : m = 0
  · subst hm
    have hyes : t0.max_retries ≤ t0.retry_count + 1 := by omega
    rw [show iterFailCycle msg τ 1 s = (iterFailCycle msg τ 0 s).bind
      (fun q => failCycle q msg τ) from rfl]
    simp only [iterFailCycle, Option.some_bind]
    rw [failCycle_step s t0 msg τ hq hp hcc, if_pos hyes]
    rw [hrc, hmr]
    obtain ⟨i1, i2, i3, i4, i5, i6, i7, i8, i9, i10, i11, i12, i13, i14, i15, i16,
      i17, i18, i19⟩ := t0
    simp only at hst
    subst hst
    rfl
  · have hmid := iterFailCycle_mid s t0 msg τ (m + 1) hq hp hcc hrc hmr m
      (by omega) (by omega)
    rw [show iterFailCycle msg τ (m + 1) s = (iterFailCycle msg τ m s).bind
      (fun q => failCycle q msg τ) from rfl, hmid, Option.some_bind]
    have hyes : (taskAfter t0 msg τ m).max_retries ≤
        (taskAfter t0 msg τ m).retry_count + 1 := by
      simp only [taskAfter]
      omega
    rw [failCycle_step _ (taskAfter t0 msg τ m) msg τ rfl rfl (by simpa using hcc),
      if_pos hyes]
    simp [taskAfter]

/-- Witness for C7 at n = 2: one retry re-insertion, then terminal FAILED on
the second failTask. -/
theorem c7_retry_exhaustion_witness :
    iterFailCycle "boom" 150 1
      { queue := [⟨0, "collect_news", none, 2, TaskStatus.PENDING, "", none, none, 100,
          100, none, none, none, none, 0, 2, 1000, [], []⟩],
        processing := [], completed := [], config := ⟨5, 1000, 3, 0, 0, 7⟩,
        nextId := 1 } =
      some { queue := [taskAfter (⟨0, "collect_news", none, 2, TaskStatus.PENDING, "",
               none, none, 100, 100, none, none, none, none, 0, 2, 1000, [], []⟩ : Task)
               "boom" 150 1],
             processing := [], completed := [], config := ⟨5, 1000, 3, 0, 0, 7⟩,
             nextId := 1 } ∧
    iterFailCycle "boom" 150 2
      { queue := [⟨0, "collect_news", none, 2, TaskStatus.PENDING, "", none, none, 100,
          100, none, none, none, none, 0, 2, 1000, [], []⟩],
        processing := [], completed := [], config := ⟨5, 1000, 3, 0, 0, 7⟩,
        nextId := 1 } =
      some { queue := [], processing := [],
             completed := aset [] 0
               (⟨0, "collect_news", none, 2, TaskStatus.FAILED, "", none, some "boom",
                 100, 150, none, some 150, none, some 150, 2, 2, 1000, [], []⟩ : Task),
             config := ⟨5, 1000, 3, 0, 0, 7⟩, nextId := 1 } := by
  have h := c7_retry_exhaustion
    { queue := [⟨0, "collect_news", none, 2, TaskStatus.PENDING, "", none, none, 100,
        100, none, none, none, none, 0, 2, 1000, [], []⟩],
      processing := [], completed := [], config := ⟨5, 1000, 3, 0, 0, 7⟩,
      nextId := 1 }
    ⟨0, "collect_news", none, 2, TaskStatus.PENDING, "", none, none, 100, 100, none,
      none, none, none, 0, 2, 1000, [], []⟩ "boom" 150 2 rfl rfl (by decide) rfl rfl
    rfl (by decide)
  exact ⟨h.1 1 (by decide) (by decide), h.2⟩

/-! ## Priority-ordered dequeue -/

/-- Dequeue-order key: strictly higher priority first, ties broken by
earlier creation time. -/
def lexLE (a b : Task) : Prop :=
  b.priority < a.priority ∨ (a.priority = b.priority ∧ a.created_at ≤ b.created_at)

instance : DecidableRel lexLE := fun a b => by
  unfold lexLE
  exact inferInstance

/-- The pending collection is sorted for dequeue: priority descending, ties
by earliest creation. -/
def SortedQueue (l : List Task) : Prop := l.Pairwise lexLE

instance (l : List Task) : Decidable (SortedQueue l) := by
  unfold SortedQueue
  exact inferInstance

/-- Equal-priority tasks appear in creation order. -/
def tieOK (a b : Task) : Prop := a.priority = b.priority → a.created_at ≤ b.created_at

theorem prioLE_trans (a b c : Task) : prioLE a b → prioLE b c → prioLE a c := by
  simp only [prioLE, decide_eq_true_eq]
  omega

theorem prioLE_total (a b : Task) : prioLE a b || prioLE b a := by
  simp only [prioLE, Bool.or_eq_true, decide_eq_true_eq]
  omega

/-- Stability of the pending-array sort: if equal-priority tasks of the input
appear in creation order, the stably sorted output is fully dequeue-sorted. -/
theorem mergeSort_sortedQueue (l : List Task) (h : l.Pairwise tieOK) :
    SortedQueue (l.mergeSort prioLE) := by
  have hidx := List.pairwise_iff_getElem.mp h
  have henum : ((l.enum.mergeSort (List.enumLE prioLE)).map (·.2)).Pairwise lexLE := by
    rw [List.pairwise_map]
    have hs := List.sorted_mergeSort (List.enumLE_trans prioLE_trans)
      (List.enumLE_total prioLE_total) l.enum
    refine hs.imp_of_mem ?_
    intro a b ha hb hr
    obtain ⟨i, x⟩ := a
    obtain ⟨j, y⟩ := b
    rw [List.mem_mergeSort] at ha hb
    have hx := List.mem_enum ha
    have hy := List.mem_enum hb
    simp only [List.enumLE] at hr
    by_cases hxy : prioLE x y
    · by_cases hyx : prioLE y x
      · simp only [if_pos hxy, if_pos hyx, decide_eq_true_eq] at hr
        have hpr : x.priority = y.priority := by
          simp only [prioLE, decide_eq_true_eq] at hxy hyx
          omega
        refine Or.inr ⟨hpr, ?_⟩
        rcases Nat.lt_or_ge i j with hij | hij
        · have htie := hidx i j hx.1 hy.1 hij
          rw [hx.2, hy.2]
          exact htie (by rw [← hx.2, ← hy.2]; exact hpr)
        · have hij' : i = j := by omega
          subst hij'
          rw [hx.2, hy.2]
      · simp only [prioLE, decide_eq_true_eq, not_le] at hyx
        exact Or.inl hyx
    · simp only [if_neg hxy] at hr
      exact absurd hr (by simp)
  rw [List.mergeSort_enum] at henum
  exact henum

/-- C3 (amended): in any state whose pending collection is dequeue-sorted —
priority descending, ties by earliest creation — and not at the concurrency
ceiling, dequeue returns and removes the first pending task, which has
maximal priority and, among equal priorities, the earliest creation time,
and the remaining pending collection stays sorted; enqueue re-establishes
this sortedness whenever the clock is monotone.  (failTask's re-insertion
appends to the end of the pending array without re-sorting and is exactly
the operation that can break the hypothesis — see the counterexample.) -/
theorem c3_priority_dequeue (s₁ s₂ : TaskQueue) (nt : NewTask) (now₁ : Int)
    (agentId : Option String) (now₂ : Int) (t : Task) (rest : List Task)
    (hsort₁ : SortedQueue s₁.queue) (hmono : ∀ x ∈ s₁.queue, x.created_at ≤ now₁)
    (hq : s₂.queue = t :: rest)
    (hcap : s₂.processing.length < s₂.config.max_concurrent_tasks)
    (hsort₂ : SortedQueue s₂.queue) :
    SortedQueue (TaskQueue.enqueue s₁ nt now₁).2.queue ∧
    TaskQueue.dequeue s₂ agentId now₂ =
      some ({ t with status := TaskStatus.ASSIGNED, assigned_agent := agentId,
                     assigned_at := some now₂, updated_at := now₂ },
            { s₂ with queue := rest,
                      processing := aset s₂.processing t.id
                        { t with status := TaskStatus.ASSIGNED,
                                 assigned_agent := agentId,
                                 assigned_at := some now₂, updated_at := now₂ } }) ∧
    (∀ u ∈ s₂.queue, u.priority ≤ t.priority ∧
      (u.priority = t.priority → t.created_at ≤ u.created_at)) ∧
    SortedQueue rest := by
  refine ⟨?_, TaskQueue.dequeue_cons s₂ agentId now₂ t rest hq hcap, ?_, ?_⟩
  · apply mergeSort_sortedQueue
    rw [List.pairwise_append]
    refine ⟨hsort₁.imp ?_, List.pairwise_singleton _ _, ?_⟩
    · intro a b hab hpr
      rcases hab with hlt | ⟨heq, hle⟩
      · omega
      · exact hle
    · intro a ha b hb
      simp only [List.mem_singleton] at hb
      subst hb
      intro _
      exact hmono a ha
  · rw [hq] at hsort₂
    intro u hu
    rw [hq] at hu
    rcases List.mem_cons.mp hu with hu | hu
    · subst hu
      exact ⟨le_refl _, fun _ => le_refl _⟩
    · have := (List.pairwise_cons.mp hsort₂).1 u hu
      rcases this with hlt | ⟨heq, hle⟩
      · exact ⟨by omega, fun hpe => by omega⟩
      · exact ⟨by omega, fun _ => hle⟩
  · rw [hq] at hsort₂
    exact (List.pairwise_cons.mp hsort₂).2

/-- Witness for C3 (amended): a sorted two-task pending collection (priority
5 before priority 1) with a fresh enqueue at priority 3. -/
theorem c3_priority_dequeue_witness :
    SortedQueue (TaskQueue.enqueue
      { queue := [⟨1, "detect_risks", none, 5, TaskStatus.PENDING, "", none, none, 100,
          100, none, none, none, none, 0, 3, 1000, [], []⟩,
          ⟨0, "collect_news", none, 1, TaskStatus.PENDING, "", none, none, 101, 101,
          none, none, none, none, 0, 3, 1000, [], []⟩],
        processing := [], completed := [], config := ⟨5, 1000, 3, 0, 0, 7⟩,
        nextId := 2 }
      ⟨"process_content", none, 3, "", none, none, none, none, none, none, 3, 1000, [],
        []⟩ 110).2.queue ∧
    TaskQueue.dequeue
      { queue := [⟨1, "detect_risks", none, 5, TaskStatus.PENDING, "", none, none, 100,
          100, none, none, none, none, 0, 3, 1000, [], []⟩,
          ⟨0, "collect_news", none, 1, TaskStatus.PENDING, "", none, none, 101, 101,
          none, none, none, none, 0, 3, 1000, [], []⟩],
        processing := [], completed := [], config := ⟨5, 1000, 3, 0, 0, 7⟩,
        nextId := 2 } (some "a1") 120 =
      some (⟨1, "detect_risks", none, 5, TaskStatus.ASSIGNED, "", none, none, 100, 120,
          some "a1", some 120, none, none, 0, 3, 1000, [], []⟩,
        { queue := [⟨0, "collect_news", none, 1, TaskStatus.PENDING, "", none, none,
            101, 101, none, none, none, none, 0, 3, 1000, [], []⟩],
          processing := [(1, ⟨1, "detect_risks", none, 5, TaskStatus.ASSIGNED, "", none,
            none, 100, 120, some "a1", some 120, none, none, 0, 3, 1000, [], []⟩)],
          completed := [], config := ⟨5, 1000, 3, 0, 0, 7⟩, nextId := 2 }) ∧
    (∀ u ∈ ([⟨1, "detect_risks", none, 5, TaskStatus.PENDING, "", none, none, 100, 100,
        none, none, none, none, 0, 3, 1000, [], []⟩,
        ⟨0, "collect_news", none, 1, TaskStatus.PENDING, "", none, none, 101, 101, none,
        none, none, none, 0, 3, 1000, [], []⟩] : List Task),
      u.priority ≤ 5 ∧ (u.priority = 5 → (100 : Int) ≤ u.created_at)) ∧
    SortedQueue [⟨0, "collect_news", none, 1, TaskStatus.PENDING, "", none, none, 101,
      101, none, none, none, none, 0, 3, 1000, [], []⟩] := by
  have h := c3_priority_dequeue
    { queue := [⟨1, "detect_risks", none, 5, TaskStatus.PENDING, "", none, none, 100,
        100, none, none, none, none, 0, 3, 1000, [], []⟩,
        ⟨0, "collect_news", none, 1, TaskStatus.PENDING, "", none, none, 101, 101,
        none, none, none, none, 0, 3, 1000, [], []⟩],
      processing := [], completed := [], config := ⟨5, 1000, 3, 0, 0, 7⟩, nextId := 2 }
    { queue := [⟨1, "detect_risks", none, 5, TaskStatus.PENDING, "", none, none, 100,
        100, none, none, none, none, 0, 3, 1000, [], []⟩,
        ⟨0, "collect_news", none, 1, TaskStatus.PENDING, "", none, none, 101, 101,
        none, none, none, none, 0, 3, 1000, [], []⟩],
      processing := [], completed := [], config := ⟨5, 1000, 3, 0, 0, 7⟩, nextId := 2 }
    ⟨"process_content", none, 3, "", none, none, none, none, none, none, 3, 1000, [],
      []⟩ 110 (some "a1") 120
    (⟨1, "detect_risks", none, 5, TaskStatus.PENDING, "", none, none, 100, 100, none,
      none, none, none, 0, 3, 1000, [], []⟩ : Task)
    [⟨0, "collect_news", none, 1, TaskStatus.PENDING, "", none, none, 101, 101, none,
      none, none, none, 0, 3, 1000, [], []⟩]
    (by decide) (by decide) rfl (by decide) (by decide)
  exact ⟨h.1, h.2.1, h.2.2.1, h.2.2.2⟩

/-- C3 counterexample: pending [priority 5, priority 1]; dequeue the
priority-5 task and fail it, so failTask appends it back behind the
priority-1 task; the next dequeue then returns the priority-1 task even
though a priority-5 task is pending, refuting the claim for states reached
through failTask re-insertion. -/
theorem c3_counterexample :
    ((TaskQueue.dequeue
        { queue := [⟨1, "detect_risks", none, 5, TaskStatus.PENDING, "", none, none,
            100, 100, none, none, none, none, 0, 3, 1000, [], []⟩,
            ⟨0, "collect_news", none, 1, TaskStatus.PENDING, "", none, none, 101, 101,
            none, none, none, none, 0, 3, 1000, [], []⟩],
          processing := [], completed := [], config := ⟨5, 1000, 3, 0, 0, 7⟩,
          nextId := 2 } none 110).bind (fun p =>
      TaskQueue.failTask p.2 p.1.id "err" 120)).bind (fun s2 =>
      (TaskQueue.dequeue s2 none 130).map (fun p =>
        (p.1.id, p.1.priority, s2.queue.map (fun u => u.priority)))) =
      some (0, 1, [1, 5]) := by
  decide

/-! ## Disjointness of the three task stores -/

/-- Ids of the pending collection. -/
def qids (s : TaskQueue) : List Nat := s.queue.map (·.id)

/-- Keys of the processing Map. -/
def pids (s : TaskQueue) : List Nat := akeys s.processing

/-- Keys of the completed Map. -/
def cids (s : TaskQueue) : List Nat := akeys s.completed

/-- Well-formedness invariant of a TaskQueue state: duplicate-free stores
with pairwise-disjoint id sets, Map values keyed by their own task id, and
every id below the fresh-id counter. -/
structure TaskQueue.WF (s : TaskQueue) : Prop where
  qnd : (qids s).Nodup
  pnd : (pids s).Nodup
  cnd : (cids s).Nodup
  qp : List.Disjoint (qids s) (pids s)
  qc : List.Disjoint (qids s) (cids s)
  pc : List.Disjoint (pids s) (cids s)
  palign : ∀ p ∈ s.processing, p.2.id = p.1
  calign : ∀ p ∈ s.completed, p.2.id = p.1
  qlt : ∀ i ∈ qids s, i < s.nextId
  plt : ∀ i ∈ pids s, i < s.nextId
  clt : ∀ i ∈ cids s, i < s.nextId

/-- One public TaskQueue operation. -/
inductive TaskQueue.Step : TaskQueue → TaskQueue → Prop
  | enqueue (s : TaskQueue) (nt : NewTask) (now : Int) :
      TaskQueue.Step s (TaskQueue.enqueue s nt now).2
  | dequeue (s : TaskQueue) (agentId : Option String) (now : Int) (t : Task)
      (s' : TaskQueue) (h : TaskQueue.dequeue s agentId now = some (t, s')) :
      TaskQueue.Step s s'
  | start (s : TaskQueue) (taskId : Nat) (now : Int) (s' : TaskQueue)
      (h : TaskQueue.startTask s taskId now = some s') : TaskQueue.Step s s'
  | complete (s : TaskQueue) (taskId : Nat) (result : String) (now : Int)
      (s' : TaskQueue) (h : TaskQueue.completeTask s taskId result now = some s') :
      TaskQueue.Step s s'
  | fail (s : TaskQueue) (taskId : Nat) (error : String) (now : Int) (s' : TaskQueue)
      (h : TaskQueue.failTask s taskId error now = some s') : TaskQueue.Step s s'
  | cancel (s : TaskQueue) (taskId : Nat) (now : Int) :
      TaskQueue.Step s (TaskQueue.cancelTask s taskId now)
  | timeouts (s : TaskQueue) (now : Int) (s' : TaskQueue)
      (h : TaskQueue.checkTimeouts s now = some s') : TaskQueue.Step s s'
  | cleanup (s : TaskQueue) (now : Int) :
      TaskQueue.Step s (TaskQueue.cleanup s now)

/-- States reachable from an empty queue by TaskQueue operations. -/
inductive TaskQueue.Reachable : TaskQueue → Prop
  | init (cfg : TaskConfig) : TaskQueue.Reachable (TaskQueue.empty cfg)
  | step {s s' : TaskQueue} (hr : TaskQueue.Reachable s) (hs : TaskQueue.Step s s') :
      TaskQueue.Reachable s'

theorem mem_akeys_aset {κ α : Type} [DecidableEq κ] (m : List (κ × α)) (k : κ) (v : α)
    (k' : κ) : k' ∈ akeys (aset m k v) ↔ k' ∈ akeys m ∨ k' = k := by
  by_cases h : k ∈ akeys m
  · rw [akeys_aset_of_mem v h]
    constructor
    · intro h'; left; exact h'
    · rintro (h' | rfl)
      · exact h'
      · exact h
  · rw [akeys_aset_of_not_mem v h]
    simp

theorem mem_akeys_adel_of {κ α : Type} [DecidableEq κ] {m : List (κ × α)} {k k' : κ}
    (h : k' ∈ akeys m) (hne : k' ≠ k) : k' ∈ akeys (adel m k) := by
  induction m with
  | nil => simp [akeys] at h
  | cons p rest ih =>
      obtain ⟨k₀, v₀⟩ := p
      simp only [akeys, List.map_cons, List.mem_cons] at h
      by_cases h₀ : k₀ = k
      · subst h₀
        rcases h with h | h
        · exact absurd h.symm (fun hh => hne hh.symm)
        · simp only [adel, if_pos rfl]
          exact h
      · simp only [adel, if_neg h₀, akeys, List.map_cons, List.mem_cons]
        rcases h with h | h
        · left; exact h
        · right; exact ih h

theorem removeFirstTask_sublist (l : List Task) (taskId : Nat) :
    List.Sublist (removeFirstTask l taskId) l := by
  induction l with
  | nil => simp [removeFirstTask]
  | cons t rest ih =>
      by_cases h : t.id = taskId
      · simp only [removeFirstTask, if_pos h]
        exact List.sublist_cons_self _ _
      · simp only [removeFirstTask, if_neg h]
        exact ih.cons₂ _

theorem not_mem_removeFirstTask_ids {l : List Task} {taskId : Nat}
    (hnd : (l.map (·.id)).Nodup) :
    taskId ∉ (removeFirstTask l taskId).map (·.id) := by
  induction l with
  | nil => simp [removeFirstTask]
  | cons t rest ih =>
      simp only [List.map_cons, List.nodup_cons] at hnd
      by_cases h : t.id = taskId
      · simp only [removeFirstTask, if_pos h]
        rw [← h]
        exact hnd.1
      · simp only [removeFirstTask, if_neg h, List.map_cons, List.mem_cons]
        rintro (hh | hh)
        · exact h hh.symm
        · exact ih hnd.2 hh

theorem WF_empty (cfg : TaskConfig) : (TaskQueue.empty cfg).WF := by
  refine ⟨?_, ?_, ?_, ?_, ?_, ?_, ?_, ?_, ?_, ?_, ?_⟩ <;>
    simp [TaskQueue.empty, qids, pids, cids, akeys, List.Disjoint]

theorem WF_enqueue {s : TaskQueue} (hwf : s.WF) (nt : NewTask) (now : Int) :
    (TaskQueue.enqueue s nt now).2.WF := by
  have hperm : List.Perm (qids (TaskQueue.enqueue s nt now).2)
      (qids s ++ [s.nextId]) := by
    have h2 := (List.mergeSort_perm
      (s.queue ++ [(TaskQueue.enqueue s nt now).1]) prioLE).map (fun t => t.id)
    rw [List.map_append] at h2
    exact h2
  have hmem : ∀ i, i ∈ qids (TaskQueue.enqueue s nt now).2 ↔
      i ∈ qids s ∨ i = s.nextId := by
    intro i
    rw [hperm.mem_iff]
    simp
  have hnq : s.nextId ∉ qids s := fun h => absurd (hwf.qlt _ h) (lt_irrefl _)
  refine ⟨?_, hwf.pnd, hwf.cnd, ?_, ?_, hwf.pc, hwf.palign, hwf.calign, ?_, ?_, ?_⟩
  · refine (hperm.nodup_iff).mpr ?_
    rw [List.nodup_append]
    exact ⟨hwf.qnd, List.nodup_singleton _, by
      intro i hi hi'
      simp only [List.mem_singleton] at hi'
      subst hi'
      exact hnq hi⟩
  · intro i hi hip
    rcases (hmem i).mp hi with hi | rfl
    · exact hwf.qp hi hip
    · exact absurd (hwf.plt _ hip) (lt_irrefl _)
  · intro i hi hic
    rcases (hmem i).mp hi with hi | rfl
    · exact hwf.qc hi hic
    · exact absurd (hwf.clt _ hic) (lt_irrefl _)
  · intro i hi
    rcases (hmem i).mp hi with hi | rfl
    · exact Nat.lt_succ_of_lt (hwf.qlt _ hi)
    · exact Nat.lt_succ_self _
  · intro i hi
    exact Nat.lt_succ_of_lt (hwf.plt _ hi)
  · intro i hi
    exact Nat.lt_succ_of_lt (hwf.clt _ hi)

theorem WF_dequeue {s : TaskQueue} {agentId : Option String} {now : Int} {t : Task}
    {s' : TaskQueue} (h : TaskQueue.dequeue s agentId now = some (t, s'))
    (hwf : s.WF) : s'.WF := by
  cases hq : s.queue with
  | nil =>
      rw [TaskQueue.dequeue, hq] at h
      exact Option.noConfusion h
  | cons t0 rest =>
      by_cases hcap : s.config.max_concurrent_tasks ≤ s.processing.length
      · simp only [TaskQueue.dequeue, hq, if_pos hcap] at h
        exact Option.noConfusion h
      · rw [TaskQueue.dequeue_cons s agentId now t0 rest hq (by omega)] at h
        simp only [Option.some.injEq, Prod.mk.injEq] at h
        obtain ⟨-, hs'⟩ := h
        subst hs'
        have hq0 : t0.id ∈ qids s := by
          simp [qids, hq]
        have hqnd : (qids s).Nodup := hwf.qnd
        rw [show qids s = t0.id :: rest.map (fun t => t.id) by simp [qids, hq]] at hqnd
        rw [List.nodup_cons] at hqnd
        have hnp : t0.id ∉ pids s := fun hp => hwf.qp hq0 hp
        have hpk : akeys (aset s.processing t0.id
            { t0 with status := TaskStatus.ASSIGNED, assigned_agent := agentId,
                      assigned_at := some now, updated_at := now }) =
            pids s ++ [t0.id] := akeys_aset_of_not_mem _ hnp
        have hqmem : ∀ i, i ∈ rest.map (fun t => t.id) → i ∈ qids s := by
          intro i hi
          simp only [qids, hq, List.map_cons, List.mem_cons]
          right
          exact hi
        refine ⟨hqnd.2, ?_, hwf.cnd, ?_, ?_, ?_, ?_, hwf.calign, ?_, ?_, hwf.clt⟩
        · show (pids _).Nodup
          simp only [pids]
          rw [hpk, List.nodup_append]
          exact ⟨hwf.pnd, List.nodup_singleton _, by
            intro i hi hi'
            simp only [List.mem_singleton] at hi'
            subst hi'
            exact hnp hi⟩
        · intro i hi hip
          show False
          simp only [pids] at hip
          rw [hpk] at hip
          rcases List.mem_append.mp hip with hip | hip
          · exact hwf.qp (hqmem i hi) hip
          · simp only [List.mem_singleton] at hip
            subst hip
            exact hqnd.1 hi
        · intro i hi hic
          exact hwf.qc (hqmem i hi) hic
        · intro i hip hic
          simp only [pids] at hip
          rw [hpk] at hip
          rcases List.mem_append.mp hip with hip | hip
          · exact hwf.pc hip hic
          · simp only [List.mem_singleton] at hip
            subst hip
            exact hwf.qc hq0 hic
        · intro p hp
          rcases mem_of_mem_aset hp with hp | hp
          · exact hwf.palign p hp
          · subst hp
            rfl
        · intro i hi
          exact hwf.qlt i (hqmem i hi)
        · intro i hip
          simp only [pids] at hip
          rw [hpk] at hip
          rcases List.mem_append.mp hip with hip | hip
          · exact hwf.plt i hip
          · simp only [List.mem_singleton] at hip
            subst hip
            exact hwf.qlt _ hq0

theorem WF_start {s : TaskQueue} {taskId : Nat} {now : Int} {s' : TaskQueue}
    (h : TaskQueue.startTask s taskId now = some s') (hwf : s.WF) : s'.WF := by
  cases hl : alookup s.processing taskId with
  | none =>
      rw [TaskQueue.startTask, hl] at h
      exact Option.noConfusion h
  | some t =>
      rw [TaskQueue.startTask, hl] at h
      simp only [Option.some.injEq] at h
      subst h
      have hmem : taskId ∈ pids s := by
        have := alookup_isSome_iff_mem_akeys s.processing taskId
        rw [hl] at this
        exact this.mp rfl
      have hpk : akeys (aset s.processing taskId
          { t with status := TaskStatus.RUNNING, started_at := some now,
                   updated_at := now }) = pids s := akeys_aset_of_mem _ hmem
      have htid : t.id = taskId := hwf.palign _ (alookup_eq_some_mem hl)
      refine ⟨hwf.qnd, ?_, hwf.cnd, ?_, hwf.qc, ?_, ?_, hwf.calign, hwf.qlt, ?_,
        hwf.clt⟩
      · show (pids _).Nodup
        simp only [pids]
        rw [hpk]
        exact hwf.pnd
      · intro i hi hip
        simp only [pids] at hip
        rw [hpk] at hip
        exact hwf.qp hi hip
      · intro i hip hic
        simp only [pids] at hip
        rw [hpk] at hip
        exact hwf.pc hip hic
      · intro p hp
        rcases mem_of_mem_aset hp with hp | hp
        · exact hwf.palign p hp
        · subst hp
          exact htid
      · intro i hip
        simp only [pids] at hip
        rw [hpk] at hip
        exact hwf.plt i hip

theorem WF_complete {s : TaskQueue} {taskId : Nat} {result : String} {now : Int}
    {s' : TaskQueue} (h : TaskQueue.completeTask s taskId result now = some s')
    (hwf : s.WF) : s'.WF := by
  cases hl : alookup s.processing taskId with
  | none =>
      rw [TaskQueue.completeTask, hl] at h
      exact Option.noConfusion h
  | some t =>
      rw [TaskQueue.completeTask, hl] at h
      simp only [Option.some.injEq] at h
      subst h
      have hmem : taskId ∈ pids s := by
        have := alookup_isSome_iff_mem_akeys s.processing taskId
        rw [hl] at this
        exact this.mp rfl
      have hnc : taskId ∉ cids s := fun hc => hwf.pc hmem hc
      have htid : t.id = taskId := hwf.palign _ (alookup_eq_some_mem hl)
      have hck : akeys (aset s.completed taskId
          { t with status := TaskStatus.COMPLETED, result := some result,
                   completed_at := some now, updated_at := now }) =
          cids s ++ [taskId] := akeys_aset_of_not_mem _ hnc
      have hsub := akeys_adel_sublist s.processing taskId
      have hnpd : taskId ∉ akeys (adel s.processing taskId) :=
        not_mem_akeys_adel hwf.pnd
      refine ⟨hwf.qnd, ?_, ?_, ?_, ?_, ?_, ?_, ?_, hwf.qlt, ?_, ?_⟩
      · show (pids _).Nodup
        exact List.Nodup.sublist hsub hwf.pnd
      · show (cids _).Nodup
        simp only [cids]
        rw [hck, List.nodup_append]
        exact ⟨hwf.cnd, List.nodup_singleton _, by
          intro i hi hi'
          simp only [List.mem_singleton] at hi'
          subst hi'
          exact hnc hi⟩
      · intro i hi hip
        exact hwf.qp hi (hsub.subset hip)
      · intro i hi hic
        simp only [cids] at hic
        rw [hck] at hic
        rcases List.mem_append.mp hic with hic | hic
        · exact hwf.qc hi hic
        · simp only [List.mem_singleton] at hic
          subst hic
          exact hwf.qp hi hmem
      · intro i hip hic
        simp only [cids] at hic
        rw [hck] at hic
        rcases List.mem_append.mp hic with hic | hic
        · exact hwf.pc (hsub.subset hip) hic
        · simp only [List.mem_singleton] at hic
          subst hic
          exact hnpd hip
      · intro p hp
        exact hwf.palign p (mem_of_mem_adel hp)
      · intro p hp
        rcases mem_of_mem_aset hp with hp | hp
        · exact hwf.calign p hp
        · subst hp
          exact htid
      · intro i hip
        exact hwf.plt i (hsub.subset hip)
      · intro i hic
        simp only [cids] at hic
        rw [hck] at hic
        rcases List.mem_append.mp hic with hic | hic
        · exact hwf.clt i hic
        · simp only [List.mem_singleton] at hic
          subst hic
          exact hwf.plt _ hmem

theorem WF_fail {s : TaskQueue} {taskId : Nat} {error : String} {now : Int}
    {s' : TaskQueue} (h : TaskQueue.failTask s taskId error now = some s')
    (hwf : s.WF) : s'.WF := by
  cases hl : alookup s.processing taskId with
  | none =>
      rw [TaskQueue.failTask, hl] at h
      exact Option.noConfusion h
  | some t =>
      rw [TaskQueue.failTask, hl] at h
      have hmem : taskId ∈ pids s := by
        have := alookup_isSome_iff_mem_akeys s.processing taskId
        rw [hl] at this
        exact this.mp rfl
      have htid : t.id = taskId := hwf.palign _ (alookup_eq_some_mem hl)
      have hsub := akeys_adel_sublist s.processing taskId
      have hnpd : taskId ∉ akeys (adel s.processing taskId) :=
        not_mem_akeys_adel hwf.pnd
      by_cases hmr : t.max_retries ≤ t.retry_count + 1
      · simp only [if_pos hmr, Option.some.injEq] at h
        subst h
        have hnc : taskId ∉ cids s := fun hc => hwf.pc hmem hc
        have hck : akeys (aset s.completed taskId
            { t with retry_count := t.retry_count + 1, error := some error,
                     updated_at := now, status := TaskStatus.FAILED,
                     completed_at := some now }) = cids s ++ [taskId] :=
          akeys_aset_of_not_mem _ hnc
        refine ⟨hwf.qnd, ?_, ?_, ?_, ?_, ?_, ?_, ?_, hwf.qlt, ?_, ?_⟩
        · show (pids _).Nodup
          exact List.Nodup.sublist hsub hwf.pnd
        · show (cids _).Nodup
          simp only [cids]
          rw [hck, List.nodup_append]
          exact ⟨hwf.cnd, List.nodup_singleton _, by
            intro i hi hi'
            simp only [List.mem_singleton] at hi'
            subst hi'
            exact hnc hi⟩
        · intro i hi hip
          exact hwf.qp hi (hsub.subset hip)
        · intro i hi hic
          simp only [cids] at hic
          rw [hck] at hic
          rcases List.mem_append.mp hic with hic | hic
          · exact hwf.qc hi hic
          · simp only [List.mem_singleton] at hic
            subst hic
            exact hwf.qp hi hmem
        · intro i hip hic
          simp only [cids] at hic
          rw [hck] at hic
          rcases List.mem_append.mp hic with hic | hic
          · exact hwf.pc (hsub.subset hip) hic
          · simp only [List.mem_singleton] at hic
            subst hic
            exact hnpd hip
        · intro p hp
          exact hwf.palign p (mem_of_mem_adel hp)
        · intro p hp
          rcases mem_of_mem_aset hp with hp | hp
          · exact hwf.calign p hp
          · subst hp
            exact htid
        · intro i hip
          exact hwf.plt i (hsub.subset hip)
        · intro i hic
          simp only [cids] at hic
          rw [hck] at hic
          rcases List.mem_append.mp hic with hic | hic
          · exact hwf.clt i hic
          · simp only [List.mem_singleton] at hic
            subst hic
            exact hwf.plt _ hmem
      · simp only [if_neg hmr, Option.some.injEq] at h
        subst h
        have hnq : taskId ∉ qids s := fun hq => hwf.qp hq hmem
        have hqk : qids { s with
                          processing := adel s.processing taskId,
                          queue := s.queue ++
                            [{ t with retry_count := t.retry_count + 1,
                                      error := some error,
                                      updated_at := now,
                                      status := TaskStatus.PENDING,
                                      assigned_agent := none, assigned_at := none,
                                      started_at := none }] } = qids s ++ [taskId] := by
          simp only [qids, List.map_append, List.map_cons, List.map_nil]
          rw [htid]
        refine ⟨?_, ?_, hwf.cnd, ?_, ?_, ?_, ?_, hwf.calign, ?_, ?_, hwf.clt⟩
        · show (qids _).Nodup
          rw [hqk, List.nodup_append]
          exact ⟨hwf.qnd, List.nodup_singleton _, by
            intro i hi hi'
            simp only [List.mem_singleton] at hi'
            subst hi'
            exact hnq hi⟩
        · show (pids _).Nodup
          exact List.Nodup.sublist hsub hwf.pnd
        · intro i hi hip
          rw [hqk] at hi
          rcases List.mem_append.mp hi with hi | hi
          · exact hwf.qp hi (hsub.subset hip)
          · simp only [List.mem_singleton] at hi
            subst hi
            exact hnpd hip
        · intro i hi hic
          rw [hqk] at hi
          rcases List.mem_append.mp hi with hi | hi
          · exact hwf.qc hi hic
          · simp only [List.mem_singleton] at hi
            subst hi
            exact hwf.pc hmem hic
        · intro i hip hic
          exact hwf.pc (hsub.subset hip) hic
        · intro p hp
          exact hwf.palign p (mem_of_mem_adel hp)
        · intro i hi
          rw [hqk] at hi
          rcases List.mem_append.mp hi with hi | hi
          · exact hwf.qlt i hi
          · simp only [List.mem_singleton] at hi
            subst hi
            exact hwf.plt _ hmem
        · intro i hip
          exact hwf.plt i (hsub.subset hip)

theorem WF_cancel {s : TaskQueue} (taskId : Nat) (now : Int) (hwf : s.WF) :
    (TaskQueue.cancelTask s taskId now).WF := by
  cases hf : s.queue.find? (fun x => x.id = taskId) with
  | some t =>
      have htid : t.id = taskId := by
        have := List.find?_some hf
        simpa using this
      have htm : t ∈ s.queue := List.mem_of_find?_eq_some hf
      have hq0 : taskId ∈ qids s := by
        rw [← htid]
        exact List.mem_map_of_mem _ htm
      have hnc : taskId ∉ cids s := fun hc => hwf.qc hq0 hc
      have hck : akeys (aset s.completed taskId
          { t with status := TaskStatus.CANCELLED, updated_at := now }) =
          cids s ++ [taskId] := akeys_aset_of_not_mem _ hnc
      have hsubq : List.Sublist ((removeFirstTask s.queue taskId).map (fun x => x.id))
          (qids s) := (removeFirstTask_sublist s.queue taskId).map _
      have hnotq : taskId ∉ (removeFirstTask s.queue taskId).map (fun x => x.id) :=
        not_mem_removeFirstTask_ids hwf.qnd
      simp only [TaskQueue.cancelTask, hf]
      refine ⟨?_, hwf.pnd, ?_, ?_, ?_, ?_, hwf.palign, ?_, ?_, hwf.plt, ?_⟩
      · show (qids _).Nodup
        exact List.Nodup.sublist hsubq hwf.qnd
      · show (cids _).Nodup
        simp only [cids]
        rw [hck, List.nodup_append]
        exact ⟨hwf.cnd, List.nodup_singleton _, by
          intro i hi hi'
          simp only [List.mem_singleton] at hi'
          subst hi'
          exact hnc hi⟩
      · intro i hi hip
        exact hwf.qp (hsubq.subset hi) hip
      · intro i hi hic
        simp only [cids] at hic
        rw [hck] at hic
        rcases List.mem_append.mp hic with hic | hic
        · exact hwf.qc (hsubq.subset hi) hic
        · simp only [List.mem_singleton] at hic
          subst hic
          exact hnotq hi
      · intro i hip hic
        simp only [cids] at hic
        rw [hck] at hic
        rcases List.mem_append.mp hic with hic | hic
        · exact hwf.pc hip hic
        · simp only [List.mem_singleton] at hic
          subst hic
          exact hwf.qp hq0 hip
      · intro p hp
        rcases mem_of_mem_aset hp with hp | hp
        · exact hwf.calign p hp
        · subst hp
          exact htid
      · intro i hi
        exact hwf.qlt i (hsubq.subset hi)
      · intro i hic
        simp only [cids] at hic
        rw [hck] at hic
        rcases List.mem_append.mp hic with hic | hic
        · exact hwf.clt i hic
        · simp only [List.mem_singleton] at hic
          subst hic
          exact hwf.qlt _ hq0
  | none =>
      cases hl : alookup s.processing taskId with
      | some t =>
          have hmem : taskId ∈ pids s := by
            have := alookup_isSome_iff_mem_akeys s.processing taskId
            rw [hl] at this
            exact this.mp rfl
          have hnc : taskId ∉ cids s := fun hc => hwf.pc hmem hc
          have htid : t.id = taskId := hwf.palign _ (alookup_eq_some_mem hl)
          have hck : akeys (aset s.completed taskId
              { t with status := TaskStatus.CANCELLED, updated_at := now,
                       completed_at := some now }) = cids s ++ [taskId] :=
            akeys_aset_of_not_mem _ hnc
          have hsub := akeys_adel_sublist s.processing taskId
          have hnpd : taskId ∉ akeys (adel s.processing taskId) :=
            not_mem_akeys_adel hwf.pnd
          simp only [TaskQueue.cancelTask, hf, hl]
          refine ⟨hwf.qnd, ?_, ?_, ?_, ?_, ?_, ?_, ?_, hwf.qlt, ?_, ?_⟩
          · show (pids _).Nodup
            exact List.Nodup.sublist hsub hwf.pnd
          · show (cids _).Nodup
            simp only [cids]
            rw [hck, List.nodup_append]
            exact ⟨hwf.cnd, List.nodup_singleton _, by
              intro i hi hi'
              simp only [List.mem_singleton] at hi'
              subst hi'
              exact hnc hi⟩
          · intro i hi hip
            exact hwf.qp hi (hsub.subset hip)
          · intro i hi hic
            simp only [cids] at hic
            rw [hck] at hic
            rcases List.mem_append.mp hic with hic | hic
            · exact hwf.qc hi hic
            · simp only [List.mem_singleton] at hic
              subst hic
              exact hwf.qp hi hmem
          · intro i hip hic
            simp only [cids] at hic
            rw [hck] at hic
            rcases List.mem_append.mp hic with hic | hic
            · exact hwf.pc (hsub.subset hip) hic
            · simp only [List.mem_singleton] at hic
              subst hic
              exact hnpd hip
          · intro p hp
            exact hwf.palign p (mem_of_mem_adel hp)
          · intro p hp
            rcases mem_of_mem_aset hp with hp | hp
            · exact hwf.calign p hp
            · subst hp
              exact htid
          · intro i hip
            exact hwf.plt i (hsub.subset hip)
          · intro i hic
            simp only [cids] at hic
            rw [hck] at hic
            rcases List.mem_append.mp hic with hic | hic
            · exact hwf.clt i hic
            · simp only [List.mem_singleton] at hic
              subst hic
              exact hwf.plt _ hmem
      | none =>
          simp only [TaskQueue.cancelTask, hf, hl]
          exact hwf

theorem foldl_bind_none (f : TaskQueue → Nat → Option TaskQueue) :
    ∀ (ids : List Nat),
    ids.foldl (fun acc i => acc.bind (fun q => f q i)) none = none
  | [] => rfl
  | i :: ids => by
      simp only [List.foldl_cons, Option.none_bind]
      exact foldl_bind_none f ids

theorem WF_foldFail (error : String) (now : Int) :
    ∀ (ids : List Nat) (s : TaskQueue), s.WF → ∀ s' : TaskQueue,
    ids.foldl (fun acc i => acc.bind
      (fun q => TaskQueue.failTask q i error now)) (some s) = some s' → s'.WF
  | [], s, hwf, s', h => by
      simp only [List.foldl_nil, Option.some.injEq] at h
      rwa [← h]
  | i :: ids, s, hwf, s', h => by
      simp only [List.foldl_cons, Option.some_bind] at h
      cases hf : TaskQueue.failTask s i error now with
      | none =>
          rw [hf, foldl_bind_none] at h
          exact Option.noConfusion h
      | some s₁ =>
          rw [hf] at h
          exact WF_foldFail error now ids s₁ (WF_fail hf hwf) s' h

theorem WF_timeouts {s : TaskQueue} {now : Int} {s' : TaskQueue}
    (h : TaskQueue.checkTimeouts s now = some s') (hwf : s.WF) : s'.WF := by
  rw [TaskQueue.checkTimeouts] at h
  exact WF_foldFail "Task timeout" now _ s hwf s' h

theorem WF_cleanup {s : TaskQueue} (now : Int) (hwf : s.WF) :
    (TaskQueue.cleanup s now).WF := by
  have hsub : List.Sublist (cids (TaskQueue.cleanup s now)) (cids s) :=
    (List.filter_sublist s.completed).map _
  refine ⟨hwf.qnd, hwf.pnd, List.Nodup.sublist hsub hwf.cnd, hwf.qp, ?_, ?_,
    hwf.palign, ?_, hwf.qlt, hwf.plt, ?_⟩
  · intro i hi hic
    exact hwf.qc hi (hsub.subset hic)
  · intro i hip hic
    exact hwf.pc hip (hsub.subset hic)
  · intro p hp
    exact hwf.calign p ((List.filter_sublist s.completed).subset hp)
  · intro i hic
    exact hwf.clt i (hsub.subset hic)

theorem WF_step {s s' : TaskQueue} (hwf : s.WF) (hs : TaskQueue.Step s s') : s'.WF := by
  cases hs with
  | enqueue nt now => exact WF_enqueue hwf nt now
  | dequeue agentId now t s' h => exact WF_dequeue h hwf
  | start taskId now s' h => exact WF_start h hwf
  | complete taskId result now s' h => exact WF_complete h hwf
  | fail taskId error now s' h => exact WF_fail h hwf
  | cancel taskId now => exact WF_cancel taskId now hwf
  | timeouts now s' h => exact WF_timeouts h hwf
  | cleanup now => exact WF_cleanup now hwf

/-- C10: in every state reachable from an empty TaskQueue by any sequence of
its operations, the pending collection, the processing Map and the completed
Map are duplicate-free and pairwise disjoint on task ids — every task id
occurs in at most one of the three stores. -/
theorem c10_store_disjointness (s : TaskQueue) (h : TaskQueue.Reachable s) :
    List.Disjoint (qids s) (pids s) ∧ List.Disjoint (qids s) (cids s) ∧
    List.Disjoint (pids s) (cids s) ∧
    (qids s).Nodup ∧ (pids s).Nodup ∧ (cids s).Nodup := by
  have hwf : s.WF := by
    induction h with
    | init cfg => exact WF_empty cfg
    | step hr hs ih => exact WF_step ih hs
  exact ⟨hwf.qp, hwf.qc, hwf.pc, hwf.qnd, hwf.pnd, hwf.cnd⟩

/-- Witness for C10 at the initial (empty) state. -/
theorem c10_store_disjointness_witness :
    List.Disjoint (qids (TaskQueue.empty ⟨5, 1000, 3, 0, 0, 7⟩))
      (pids (TaskQueue.empty ⟨5, 1000, 3, 0, 0, 7⟩)) ∧
    List.Disjoint (qids (TaskQueue.empty ⟨5, 1000, 3, 0, 0, 7⟩))
      (cids (TaskQueue.empty ⟨5, 1000, 3, 0, 0, 7⟩)) ∧
    List.Disjoint (pids (TaskQueue.empty ⟨5, 1000, 3, 0, 0, 7⟩))
      (cids (TaskQueue.empty ⟨5, 1000, 3, 0, 0, 7⟩)) ∧
    (qids (TaskQueue.empty ⟨5, 1000, 3, 0, 0, 7⟩)).Nodup ∧
    (pids (TaskQueue.empty ⟨5, 1000, 3, 0, 0, 7⟩)).Nodup ∧
    (cids (TaskQueue.empty ⟨5, 1000, 3, 0, 0, 7⟩)).Nodup :=
  c10_store_disjointness (TaskQueue.empty ⟨5, 1000, 3, 0, 0, 7⟩)
    (TaskQueue.Reachable.init ⟨5, 1000, 3, 0, 0, 7⟩)

end AINews
